import Mathlib

/-!
Verification of the bhz-football-bot fixture pipeline.

Shallow embedding of the Python sources:
  * `src/bot_agenda_futebol.py`            (namespace `BotAgenda`)
  * `src/providers/ge_globo_mineiro_provider.py` (namespace `GeGlobo`)
  * `src/providers/ge_mineiro_provider.py`  (only cited indirectly)
  * `src/providers/flashscore_provider.py`  (namespace `FlashScore`)
  * `src/providers/sofascore_provider.py`   (namespace `SofaScore`)

Pure functions are translated into Lean functions; dict-shaped duck-typed
payloads become structures whose fields are the keys the code reads;
machine-level concerns (HTTP, logging, SHA-1 digests) are modelled at the
boundary where the code consumes them, as documented on each definition.
-/

namespace Py

/-- Python `\s` (re module, default flags on `str`): ASCII whitespace
including vertical tab and form feed. -/
def pyIsSpace (c : Char) : Bool :=
  c.isWhitespace || c = '\x0b' || c = '\x0c'

/-- Python `str.strip()` on a character list: drop whitespace from both ends. -/
def pyStripList (l : List Char) : List Char :=
  ((l.dropWhile pyIsSpace).reverse.dropWhile pyIsSpace).reverse

/-- Python `str.strip()`. -/
def pyStrip (s : String) : String :=
  ⟨pyStripList s.toList⟩

/-- Python `str.strip(chars)` on a character list: drop the given characters
from both ends. -/
def pyStripCharsList (cs : List Char) (l : List Char) : List Char :=
  ((l.dropWhile (fun c => cs.contains c)).reverse.dropWhile (fun c => cs.contains c)).reverse

/-- Python `str.strip(chars)`. -/
def pyStripChars (cs : String) (s : String) : String :=
  ⟨pyStripCharsList cs.toList s.toList⟩

/-- Python substring containment `needle in hay` (note `"" in s` is `True`). -/
def strContains (hay needle : String) : Bool :=
  hay.toList.tails.any (fun t => needle.toList.isPrefixOf t)

/-- Index of the first occurrence of `needle` in `l`, if any
(Python `str.find` when it does not return -1). -/
def findSubIdx (needle : List Char) : List Char → Option Nat
  | [] => if needle = [] then some 0 else none
  | c :: t =>
    if needle.isPrefixOf (c :: t) then some 0
    else (findSubIdx needle t).map (· + 1)

/-- Python `s.split(sep, 1)` when `sep` occurs in `s`: the text before the
first occurrence and the text after it. -/
def splitOnceStr (s sep : String) : Option (String × String) :=
  match findSubIdx sep.toList s.toList with
  | none => none
  | some i => some (⟨s.toList.take i⟩, ⟨s.toList.drop (i + sep.toList.length)⟩)

/-- Numeric value of a decimal digit character. -/
def dval (c : Char) : Nat := c.toNat - '0'.toNat

/-- Python `int(s)` on strings: optional surrounding whitespace, optional
sign, at least one decimal digit, nothing else (underscore grouping is not
used by this repository's inputs). `none` models `ValueError`. -/
def pyInt (s : String) : Option Int :=
  match pyStripList s.toList with
  | [] => none
  | c :: t =>
    let digits : List Char := if c = '-' || c = '+' then t else c :: t
    if digits ≠ [] ∧ digits.all Char.isDigit then
      let n : Nat := digits.foldl (fun a d => a * 10 + dval d) 0
      some (if c = '-' then -(n : Int) else (n : Int))
    else none

/-- Python `str.lower()` for the ASCII repertoire (accented characters are
decomposed before lowering wherever this pipeline lowers text). -/
def pyLower (s : String) : String :=
  ⟨s.toList.map Char.toLower⟩

/-- Python `str.isdigit()` for ASCII-decimal content. -/
def pyIsdigit (s : String) : Bool :=
  !s.isEmpty && s.toList.all Char.isDigit

/-- Python `s.split(sep)` for a one-character separator (structural
recursion; `"".split(sep)` is `[""]` as in Python). -/
def splitCharAux (sep : Char) : List Char → List Char → List String
  | [], acc => [⟨acc.reverse⟩]
  | c :: t, acc =>
    if c = sep then ⟨acc.reverse⟩ :: splitCharAux sep t []
    else splitCharAux sep t (c :: acc)

/-- Python `s.split(sep)` for a one-character separator. -/
def pySplitChar (sep : Char) (s : String) : List String :=
  splitCharAux sep s.toList []

/-- Two decimal digits, zero padded (`%02d`).  Every field this formatter is
applied to is bounded below 100 by the `datetime` invariants the sources rely
on, so the fixed width is faithful. -/
def pad2L (n : Nat) : List Char :=
  [Nat.digitChar (n / 10 % 10), Nat.digitChar (n % 10)]

/-- Four decimal digits, zero padded (`%Y`, years are within 1..9999 by the
`datetime` range invariant). -/
def pad4L (n : Nat) : List Char :=
  [Nat.digitChar (n / 1000 % 10), Nat.digitChar (n / 100 % 10),
   Nat.digitChar (n / 10 % 10), Nat.digitChar (n % 10)]

/-- Gregorian leap year test, as in Python's `calendar`/`datetime`. -/
def isLeap (y : Nat) : Bool :=
  y % 4 = 0 && (y % 100 ≠ 0 || y % 400 = 0)

/-- Length of a month, as enforced by `datetime.date`. -/
def daysInMonth (y m : Nat) : Nat :=
  if m = 2 then (if isLeap y then 29 else 28)
  else if m = 4 ∨ m = 6 ∨ m = 9 ∨ m = 11 then 30
  else 31

/-- Calendar date (`datetime.date`). -/
structure PyDate where
  year : Nat
  month : Nat
  day : Nat
deriving DecidableEq, Repr

/-- Validity predicate of `datetime.date(year, month, day)`: the constructor
raises `ValueError` outside these bounds. -/
def validDate (d : PyDate) : Prop :=
  1 ≤ d.year ∧ d.year ≤ 9999 ∧ 1 ≤ d.month ∧ d.month ≤ 12 ∧
    1 ≤ d.day ∧ d.day ≤ daysInMonth d.year d.month

instance (d : PyDate) : Decidable (validDate d) := by
  unfold validDate; infer_instance

/-- Strict order on dates (`date.__lt__`, lexicographic on (y, m, d)). -/
def dateLT (a b : PyDate) : Prop :=
  a.year < b.year ∨ (a.year = b.year ∧
    (a.month < b.month ∨ (a.month = b.month ∧ a.day < b.day)))

instance (a b : PyDate) : Decidable (dateLT a b) := by
  unfold dateLT; infer_instance

/-- Non-strict order on dates (`date.__le__`). -/
def dateLE (a b : PyDate) : Prop :=
  a.year < b.year ∨ (a.year = b.year ∧
    (a.month < b.month ∨ (a.month = b.month ∧ a.day ≤ b.day)))

instance (a b : PyDate) : Decidable (dateLE a b) := by
  unfold dateLE; infer_instance

theorem dateLE_of_not_lt {a b : PyDate} (h : ¬ dateLT a b) : dateLE b a := by
  unfold dateLT at h
  unfold dateLE
  omega

theorem dateLE_refl (a : PyDate) : dateLE a a := by
  unfold dateLE; omega

/-- Timezone-optional timestamp (`datetime.datetime`); `tz` is the UTC offset
in minutes when tzinfo is present (`None` models a naive datetime). -/
structure PyDateTime where
  year : Nat
  month : Nat
  day : Nat
  hour : Nat
  minute : Nat
  second : Nat
  tz : Option Int
deriving DecidableEq, Repr

/-- Date part of a datetime (`datetime.date()`). -/
def PyDateTime.dateOf (d : PyDateTime) : PyDate :=
  ⟨d.year, d.month, d.day⟩

/-- Formatter `strftime("%Y-%m-%d %H:%M:%S")` (the repository's
`NORMALIZED_DATETIME_FORMAT`). -/
def fmtDateTime (d : PyDateTime) : String :=
  ⟨pad4L d.year ++ '-' :: pad2L d.month ++ '-' :: pad2L d.day ++
   ' ' :: pad2L d.hour ++ ':' :: pad2L d.minute ++ ':' :: pad2L d.second⟩

/-- Time-of-day part of a canonical `YYYY-MM-DD HH:MM:SS` string. -/
def timePart (s : String) : String :=
  ⟨s.toList.drop 11⟩

/-- Parser for `strptime(value, "%Y-%m-%d %H:%M:%S")` on the zero-padded
strings this pipeline produces (strftime output is always padded), with the
calendar validation the `datetime` constructor performs. -/
def parseNormalizedDatetime (s : String) : Option PyDateTime :=
  match s.toList with
  | [y1, y2, y3, y4, '-', m1, m2, '-', d1, d2, ' ',
     h1, h2, ':', mi1, mi2, ':', s1, s2] =>
    if ([y1, y2, y3, y4, m1, m2, d1, d2, h1, h2, mi1, mi2, s1, s2].all Char.isDigit) then
      let y := 1000 * dval y1 + 100 * dval y2 + 10 * dval y3 + dval y4
      let mo := 10 * dval m1 + dval m2
      let dd := 10 * dval d1 + dval d2
      let h := 10 * dval h1 + dval h2
      let mi := 10 * dval mi1 + dval mi2
      let sec := 10 * dval s1 + dval s2
      if 1 ≤ y ∧ 1 ≤ mo ∧ mo ≤ 12 ∧ 1 ≤ dd ∧ dd ≤ daysInMonth y mo ∧
         h ≤ 23 ∧ mi ≤ 59 ∧ sec ≤ 59 then
        some ⟨y, mo, dd, h, mi, sec, none⟩
      else none
    else none
  | _ => none

/-- Days since the Unix epoch of a civil date (Howard Hinnant's
`days_from_civil`, the arithmetic `datetime.date.toordinal` is built on). -/
def daysFromCivil (y m d : Nat) : Int :=
  let yAdj : Nat := if m ≤ 2 then y - 1 else y
  let era : Nat := yAdj / 400
  let yoe : Nat := yAdj - era * 400
  let mp : Nat := if m > 2 then m - 3 else m + 9
  let doy : Nat := (153 * mp + 2) / 5 + d - 1
  let doe : Nat := yoe * 365 + yoe / 4 - yoe / 100 + doy
  (era : Int) * 146097 + (doe : Int) - 719468

/-- Civil date of a day count since the Unix epoch (Hinnant's
`civil_from_days`); meaningful for dates of year ≥ 1, which is the only
region the sources can construct. -/
def civilFromDays (z : Int) : Nat × Nat × Nat :=
  let zs : Nat := (z + 719468).toNat
  let era : Nat := zs / 146097
  let doe : Nat := zs % 146097
  let yoe : Nat := (doe - doe / 1460 + doe / 36524 - doe / 146096) / 365
  let y0 : Nat := yoe + era * 400
  let doy : Nat := doe - (365 * yoe + yoe / 4 - yoe / 100)
  let mp : Nat := (5 * doy + 2) / 153
  let d : Nat := doy - (153 * mp + 2) / 5 + 1
  let m : Nat := if mp < 10 then mp + 3 else mp - 9
  (if m ≤ 2 then y0 + 1 else y0, m, d)

/-- Wall-clock minutes since the epoch of a datetime (ignoring its tz
label and its seconds). -/
def totalWallMinutes (d : PyDateTime) : Int :=
  daysFromCivil d.year d.month d.day * 1440 + (d.hour : Int) * 60 + (d.minute : Int)

/-- Rebuild a datetime from wall-clock minutes since the epoch, carrying
seconds and a tz label through unchanged. -/
def fromTotalMinutes (t : Int) (sec : Nat) (off : Int) : PyDateTime :=
  let days : Int := t.fdiv 1440
  let rem : Nat := (t - days * 1440).toNat
  let c := civilFromDays days
  ⟨c.1, c.2.1, c.2.2, rem / 60, rem % 60, sec, some off⟩

/-- Seconds-since-epoch to naive UTC datetime
(`datetime.utcfromtimestamp`); `none` models the `ValueError`/`OSError`
raised outside the year range 1..9999. -/
def epochToDatetime (n : Int) : Option PyDateTime :=
  let days : Int := n.fdiv 86400
  let secs : Nat := (n - days * 86400).toNat
  let c := civilFromDays days
  if 1 ≤ c.1 ∧ c.1 ≤ 9999 then
    some ⟨c.1, c.2.1, c.2.2, secs / 3600, secs % 3600 / 60, secs % 60, none⟩
  else none

end Py

namespace Py

/-- Minute field of `strptime`'s `%M` directive after the colon, requiring
the whole remaining input to be consumed (CPython raises `ValueError` on
unconverted trailing data). -/
def parseMinutesHM (h : Nat) : List Char → Option (Nat × Nat)
  | [m1] => if m1.isDigit then some (h, dval m1) else none
  | [m1, m2] =>
    if m1.isDigit && m2.isDigit && decide (10 * dval m1 + dval m2 ≤ 59) then
      some (h, 10 * dval m1 + dval m2)
    else none
  | _ => none

/-- Full-consumption parser for `strptime(token, "%H:%M")`, mirroring
CPython's `_strptime` regexes (`%H` = one or two digits up to 23, with
backtracking to a one-digit hour when the colon does not follow). -/
def parseTimeHM (s : String) : Option (Nat × Nat) :=
  match s.toList with
  | c1 :: ':' :: rest =>
    if c1.isDigit then parseMinutesHM (dval c1) rest else none
  | c1 :: c2 :: ':' :: rest =>
    if c1.isDigit && c2.isDigit && decide (10 * dval c1 + dval c2 ≤ 23) then
      parseMinutesHM (10 * dval c1 + dval c2) rest
    else none
  | _ => none

/-- Date prefix `YYYY-MM-DD` of an ISO-8601 string, with the calendar
validation `datetime` performs; returns the remaining characters. -/
def parseIsoDate : List Char → Option (Nat × Nat × Nat × List Char)
  | y1 :: y2 :: y3 :: y4 :: '-' :: m1 :: m2 :: '-' :: d1 :: d2 :: rest =>
    if ([y1, y2, y3, y4, m1, m2, d1, d2].all Char.isDigit) then
      let y := 1000 * dval y1 + 100 * dval y2 + 10 * dval y3 + dval y4
      let m := 10 * dval m1 + dval m2
      let d := 10 * dval d1 + dval d2
      if 1 ≤ y ∧ 1 ≤ m ∧ m ≤ 12 ∧ 1 ≤ d ∧ d ≤ daysInMonth y m then
        some (y, m, d, rest)
      else none
    else none
  | _ => none

/-- Time component `HH:MM[:SS]` of an ISO-8601 string; returns the remaining
characters (a possible UTC-offset suffix). -/
def parseIsoTime : List Char → Option (Nat × Nat × Nat × List Char)
  | h1 :: h2 :: ':' :: m1 :: m2 :: rest =>
    if ([h1, h2, m1, m2].all Char.isDigit) then
      let h := 10 * dval h1 + dval h2
      let mi := 10 * dval m1 + dval m2
      if h ≤ 23 ∧ mi ≤ 59 then
        match rest with
        | ':' :: s1 :: s2 :: rest2 =>
          if s1.isDigit && s2.isDigit && decide (10 * dval s1 + dval s2 ≤ 59) then
            some (h, mi, 10 * dval s1 + dval s2, rest2)
          else none
        | _ => some (h, mi, 0, rest)
      else none
    else none
  | _ => none

/-- UTC-offset suffix `±HH:MM` of an ISO-8601 string, in minutes. -/
def parseIsoOffset : List Char → Option Int
  | [sgn, h1, h2, ':', m1, m2] =>
    if (sgn = '+' ∨ sgn = '-') ∧ ([h1, h2, m1, m2].all Char.isDigit) then
      let h := 10 * dval h1 + dval h2
      let mi := 10 * dval m1 + dval m2
      if h ≤ 23 ∧ mi ≤ 59 then
        let v : Int := (h : Int) * 60 + (mi : Int)
        some (if sgn = '-' then -v else v)
      else none
    else none
  | _ => none

/-- Parser for `datetime.fromisoformat` on the shapes this pipeline feeds it:
`YYYY-MM-DD`, optionally followed by a `T` or space separator, `HH:MM[:SS]`,
and an optional `±HH:MM` offset (exactly the output shapes of
`datetime.isoformat` for the datetimes the sources construct). -/
def fromIsoSubset (s : String) : Option PyDateTime :=
  match parseIsoDate s.toList with
  | none => none
  | some (y, m, d, rest) =>
    match rest with
    | [] => some ⟨y, m, d, 0, 0, 0, none⟩
    | sep :: timeRest =>
      if sep = 'T' ∨ sep = ' ' then
        match parseIsoTime timeRest with
        | none => none
        | some (h, mi, sec, rest2) =>
          match rest2 with
          | [] => some ⟨y, m, d, h, mi, sec, none⟩
          | _ => (parseIsoOffset rest2).map (fun off => ⟨y, m, d, h, mi, sec, some off⟩)
      else none

/-- Formatter `datetime.isoformat()` (seconds always present, microseconds
always zero for the datetimes this pipeline constructs). -/
def isoformat (d : PyDateTime) : String :=
  let base : List Char :=
    pad4L d.year ++ '-' :: pad2L d.month ++ '-' :: pad2L d.day ++
    'T' :: pad2L d.hour ++ ':' :: pad2L d.minute ++ ':' :: pad2L d.second
  match d.tz with
  | none => ⟨base⟩
  | some o =>
    let sign : Char := if o < 0 then '-' else '+'
    let a : Nat := o.natAbs
    ⟨base ++ sign :: pad2L (a / 60) ++ ':' :: pad2L (a % 60)⟩

/-- The fixed offset of `pytz.timezone("America/Sao_Paulo")` for the modern
dates this pipeline handles: UTC-03:00 (Brazil abolished DST in 2019), in
minutes. -/
def spOffset : Int := -180

/-- Model of `TZ.localize(dt)` for a naive `dt`: attach the local offset
without touching the wall-clock fields. -/
def localizeSP (d : PyDateTime) : PyDateTime :=
  { d with tz := some spOffset }

/-- Model of `dt.astimezone(TZ)` for an aware `dt`: same instant expressed at
UTC-03:00, i.e. the wall clock shifts by the offset difference.  CPython's
`astimezone` returns `self` unchanged when the target tzinfo is already the
datetime's tzinfo, which is the first branch.  On a naive datetime the
sources never call this (they localize instead), so that branch is inert. -/
def astimezoneSP (d : PyDateTime) : PyDateTime :=
  match d.tz with
  | none => d
  | some o =>
    if o = spOffset then d
    else fromTotalMinutes (totalWallMinutes d - o + spOffset) d.second spOffset

/-- Python `a or b` on optional strings where `none` stands for a missing
key / `None`, with the empty string falsy. -/
def pyOrS (a b : Option String) : Option String :=
  match a with
  | some v => if v ≠ "" then some v else b
  | none => b

/-- Python `x or default` producing a plain string. -/
def pyOrDefault (a : Option String) (dflt : String) : String :=
  match a with
  | some v => if v ≠ "" then v else dflt
  | none => dflt

/-- Lookup of a string-valued key in a dict literal (`d.get(k)`). -/
def dictLookup (fields : List (String × String)) (k : String) : Option String :=
  (fields.find? (fun p => p.1 = k)).map (·.2)

end Py

namespace BotAgenda

open Py

/-- Scalar JSON value as read from the Free API payloads (the two kinds the
source code distinguishes with `isinstance`: numbers and strings). -/
inductive TsValue
  | i (n : Int)
  | s (v : String)
deriving DecidableEq, Repr

/-- Python truthiness of a scalar payload value. -/
def tsTruthy : TsValue → Bool
  | .i n => n ≠ 0
  | .s v => v ≠ ""

/-- Python `str(value)` on a scalar payload value. -/
def pyStrOfTs : TsValue → String
  | .i n => toString n
  | .s v => v

/-- Python `a or b` on optional scalar payload values (`none` models a
missing key); as in Python, the second operand is returned as-is when the
first is falsy. -/
def pyOrTs (a b : Option TsValue) : Option TsValue :=
  match a with
  | some v => if tsTruthy v then some v else b
  | none => b

/-- Team block of a fixture payload as `_extract_team_name` consumes it:
a dict of string attributes, a bare string, or missing.  The attribute
values this API serves are strings; `str(val)` on a truthy string is the
string itself. -/
inductive TeamInfo
  | dict (fields : List (String × String))
  | str (s : String)
  | absent
deriving DecidableEq, Repr

/-- Scan of `_extract_team_name`'s key list: first truthy value wins. -/
def firstTruthyKey (fields : List (String × String)) : List String → Option String
  | [] => none
  | k :: ks =>
    match dictLookup fields k with
    | some v => if v ≠ "" then some v else firstTruthyKey fields ks
    | none => firstTruthyKey fields ks

/-- Embedding of `_extract_team_name` (bot_agenda_futebol.py lines 386-396). -/
def _extract_team_name : TeamInfo → Option String
  | .dict fields =>
    firstTruthyKey fields ["name", "shortName", "short_name", "displayName", "display_name"]
  | .str s => let t := pyStrip s; if t ≠ "" then some t else none
  | .absent => none

/-- Score cell payload: number or string, as `_extract_score` distinguishes. -/
inductive ScoreAtom
  | i (n : Int)
  | s (v : String)
deriving DecidableEq, Repr

/-- Score block: dict of cells, a bare cell, or missing. -/
inductive ScoreInfo
  | dict (fields : List (String × ScoreAtom))
  | atom (a : ScoreAtom)
  | absent
deriving DecidableEq, Repr

/-- Lookup in a score dict (`score_info.get(key)`). -/
def scoreLookup (fields : List (String × ScoreAtom)) (k : String) : Option ScoreAtom :=
  (fields.find? (fun p => p.1 = k)).map (·.2)

/-- Key scan of `_extract_score`: ints/floats convert directly, digit strings
convert, anything else moves to the next key. -/
def scoreFromKeys (fields : List (String × ScoreAtom)) : List String → Option Int
  | [] => none
  | k :: ks =>
    match scoreLookup fields k with
    | some (.i n) => some n
    | some (.s v) => if pyIsdigit v then pyInt v else scoreFromKeys fields ks
    | none => scoreFromKeys fields ks

/-- Embedding of `_extract_score` (bot_agenda_futebol.py lines 399-411). -/
def _extract_score : ScoreInfo → Option Int
  | .dict fields =>
    scoreFromKeys fields ["current", "display", "total", "normalTime", "normal_time"]
  | .atom (.i n) => some n
  | .atom (.s v) => if pyIsdigit v then pyInt v else none
  | .absent => none

/-- String-or-dict payload block (status, venue, round all follow this duck
type in `normalize_fixture`). -/
inductive StrOrDict
  | d (fields : List (String × String))
  | s (v : String)
  | absent
deriving DecidableEq, Repr

/-- Python truthiness of a string-or-dict block. -/
def sdTruthy : StrOrDict → Bool
  | .d fields => fields ≠ []
  | .s v => v ≠ ""
  | .absent => false

/-- Python `a or b` on string-or-dict blocks. -/
def sdOr (a b : StrOrDict) : StrOrDict :=
  if sdTruthy a then a else b

/-- Embedding of `_parse_timestamp` (bot_agenda_futebol.py lines 414-437)
restricted to the JSON scalar inputs the pipeline feeds it: epoch numbers,
digit strings, and ISO-8601 strings (with the trailing-`Z` rewrite). -/
def _parse_timestamp : TsValue → Option PyDateTime
  | .i n => epochToDatetime n
  | .s v =>
    let t := pyStrip v
    if t = "" then none
    else if pyIsdigit t then
      match pyInt t with
      | some n => epochToDatetime n
      | none => none
    else
      let t2 : String :=
        if t.toList.getLast? = some ('Z') then (⟨t.toList.dropLast⟩ : String) ++ "+00:00"
        else t
      fromIsoSubset t2

/-- Embedding of `normalize_datetime` (bot_agenda_futebol.py lines 440-453):
parse, drop the tz label without shifting the clock, and reformat. -/
def normalize_datetime (value : String) : Option String :=
  match _parse_timestamp (.s value) with
  | none => none
  | some dt => some (fmtDateTime { dt with tz := none })

/-- Embedding of `parse_normalized_datetime` (lines 456-463). -/
def parse_normalized_datetime (value : String) : Option PyDateTime :=
  let t := pyStrip value
  if t = "" then none else parseNormalizedDatetime t

/-- Fixture payload, restricted to the keys `normalize_fixture` reads.
Each field models one `get` chain target: `fixture_id` is
`(payload.get("fixture") or {}).get("id")`, `payload_id` is
`payload.get("id")`, and so on, with `none`/`absent` for missing keys. -/
structure FixturePayload where
  fixture_id : Option TsValue
  payload_id : Option TsValue
  fixture_date : Option TsValue
  fixture_timestamp : Option TsValue
  payload_date : Option TsValue
  league_name : Option String
  league_season : Option TsValue
  fixture_season : Option TsValue
  league_round : StrOrDict
  payload_round : StrOrDict
  teams_home : TeamInfo
  teams_away : TeamInfo
  goals_home : ScoreInfo
  goals_away : ScoreInfo
  fixture_status : StrOrDict
  venue : StrOrDict
deriving DecidableEq, Repr

/-- Normalized fixture record as built by `normalize_fixture` (the `raw`
passthrough field is omitted: nothing downstream reads it). -/
structure NormalizedFixture where
  external_id : String
  match_datetime : String
  competition : Option String
  season : Option TsValue
  round : Option String
  home_team : String
  away_team : String
  home_goals : Option Int
  away_goals : Option Int
  status : Option String
  venue : Option String
deriving DecidableEq, Repr

/-- Round name resolution inside `normalize_fixture`: `round_info.get("name")`
when the block is a dict, the block itself otherwise. -/
def roundName : StrOrDict → Option String
  | .d fields => dictLookup fields ("name")
  | .s v => some v
  | .absent => none

/-- Status resolution: `status_block.get("long") or .get("short") or
.get("type")` on a dict, the block itself otherwise. -/
def statusOf : StrOrDict → Option String
  | .d fields =>
    pyOrS (dictLookup fields ("long")) (pyOrS (dictLookup fields ("short")) (dictLookup fields ("type")))
  | .s v => some v
  | .absent => none

/-- Venue name resolution: `venue.get("name")` on a dict, the block itself
otherwise. -/
def venueNameOf : StrOrDict → Option String
  | .d fields => dictLookup fields ("name")
  | .s v => some v
  | .absent => none

/-- Embedding of `normalize_fixture` (bot_agenda_futebol.py lines 466-525). -/
def normalize_fixture (p : FixturePayload) : Option NormalizedFixture :=
  match pyOrTs p.fixture_id p.payload_id with
  | none => none
  | some eid =>
    if tsTruthy eid then
      match pyOrTs p.fixture_date (pyOrTs p.fixture_timestamp p.payload_date) with
      | none => none
      | some dv =>
        match _parse_timestamp dv with
        | none => none
        | some dt_parsed =>
          match normalize_datetime (isoformat dt_parsed) with
          | none => none
          | some normalized_dt =>
            match _extract_team_name p.teams_home, _extract_team_name p.teams_away with
            | some h, some a =>
              if h = "" ∨ a = "" then none
              else
                some { external_id := pyStrOfTs eid
                       match_datetime := normalized_dt
                       competition := p.league_name
                       season := pyOrTs p.fixture_season p.league_season
                       round := roundName (sdOr p.league_round p.payload_round)
                       home_team := h
                       away_team := a
                       home_goals := _extract_score p.goals_home
                       away_goals := _extract_score p.goals_away
                       status := statusOf (sdOr p.fixture_status (.d []))
                       venue := venueNameOf (sdOr p.venue (.d [])) }
            | _, _ => none
    else none

/-- Embedding of `event_matches_team` (bot_agenda_futebol.py lines 528-538). -/
def event_matches_team (ev : NormalizedFixture) (team_name : String) : Bool :=
  let target := pyLower (pyStrip team_name)
  if target = "" then true
  else
    let check : String → Bool := fun name =>
      let n := pyLower (pyStrip name)
      if n = "" then false
      else n = target || strContains n target || strContains target n
    check ev.home_team || check ev.away_team

/-- Loop body of the per-team filter in `main` (bot_agenda_futebol.py lines
599-613): normalize, require a parseable datetime, require the date inside
the window, require a team match, else drop the record. -/
def teamMatchesStep (dfrom dto : PyDate) (team_name : String)
    (acc : List NormalizedFixture) (fx : FixturePayload) : List NormalizedFixture :=
  match normalize_fixture fx with
  | none => acc
  | some normalized =>
    match parse_normalized_datetime normalized.match_datetime with
    | none => acc
    | some event_dt =>
      if dateLT event_dt.dateOf dfrom ∨ dateLT dto event_dt.dateOf then acc
      else if event_matches_team normalized team_name then acc ++ [normalized] else acc

/-- Accumulated `team_matches` list of `main` for one team. -/
def team_matches (fixtures : List FixturePayload) (dfrom dto : PyDate)
    (team_name : String) : List NormalizedFixture :=
  fixtures.foldl (teamMatchesStep dfrom dto team_name) []

end BotAgenda

namespace BotAgenda

/-- CPython dict assignment `d[k] = v` on an insertion-ordered association
list: an existing key keeps its position and gets the new value, a new key is
appended. -/
def dictInsert : List (String × NormalizedFixture) → String → NormalizedFixture →
    List (String × NormalizedFixture)
  | [], k, v => [(k, v)]
  | (k0, v0) :: t, k, v =>
    if k0 = k then (k0, v) :: t else (k0, v0) :: dictInsert t k v

/-- CPython dict lookup `d.get(k)` on the association-list model. -/
def dictGet : List (String × NormalizedFixture) → String → Option NormalizedFixture
  | [], _ => none
  | (k0, v0) :: t, k => if k0 = k then some v0 else dictGet t k

/-- Embedding of the dedup block of `main` (bot_agenda_futebol.py lines
623-626): fill an insertion-ordered dict keyed by `external_id`, then take
`list(dedup.values())`. -/
def dedup (rs : List NormalizedFixture) : List NormalizedFixture :=
  (rs.foldl (fun m r => dictInsert m r.external_id r) []).map (·.2)

/-- Keys of a list in order of first occurrence (the reference ordering the
spec describes for dedup output). -/
def firstOccKeys : List String → List String
  | [] => []
  | k :: ks => k :: firstOccKeys (ks.filter (fun x => x ≠ k))
termination_by l => l.length
decreasing_by
  simp_wf
  exact Nat.lt_succ_of_le (List.length_filter_le _ _)

/-- Last record carrying a given `external_id` (the record the spec says
wins on content): the first hit scanning from the right. -/
def lastFor (k : String) (rs : List NormalizedFixture) : Option NormalizedFixture :=
  rs.reverse.find? (fun r => r.external_id = k)

/-- Reference deduplication drawn from the spec's words: one record per
distinct `external_id`, the last-seen record for each key, keys ordered by
first occurrence. -/
def dedupSpec (rs : List NormalizedFixture) : List NormalizedFixture :=
  (firstOccKeys (rs.map (·.external_id))).filterMap (fun k => lastFor k rs)

/-- One attempt outcome inside `FreeFootballAPIClient._get`: a network-level
failure or an HTTP response carrying a status code and whether its body
parses as JSON. -/
inductive Attempt
  | timeoutErr
  | netErr
  | resp (status : Nat) (parseOk : Bool)
deriving DecidableEq, Repr

/-- Result of `_get`: which exception (if any) escapes, with `fatalSystemExit`
modelling the `raise SystemExit(1)` on HTTP 403. -/
inductive GetResult
  | fatalSystemExit
  | raisedTimeout
  | raisedNet
  | notFound
  | runtimeError
  | ok
deriving DecidableEq, Repr

/-- Embedding of the retry loop of `FreeFootballAPIClient._get`
(bot_agenda_futebol.py lines 114-162): `outs` lists the successive attempt
outcomes, `attempt` is the 1-based attempt counter.  Timeouts, network
errors and HTTP 429 retry until the attempt budget is exhausted; 403 exits
the process; 404 raises the distinguishable not-found error; other ≥400 and
parse failures raise `RuntimeError`. -/
def getRun (outs : List Attempt) (attempt retryMax : Nat) : GetResult :=
  match outs with
  | [] => .runtimeError
  | o :: rest =>
    if attempt > retryMax then .runtimeError
    else
      match o with
      | .timeoutErr =>
        if attempt ≥ retryMax then .raisedTimeout else getRun rest (attempt + 1) retryMax
      | .netErr =>
        if attempt ≥ retryMax then .raisedNet else getRun rest (attempt + 1) retryMax
      | .resp status parseOk =>
        if status = 403 then .fatalSystemExit
        else if status = 404 then .notFound
        else if status = 429 then
          if attempt ≥ retryMax then .runtimeError else getRun rest (attempt + 1) retryMax
        else if status ≥ 400 then .runtimeError
        else if parseOk then .ok else .runtimeError

/-- Retryable attempt outcomes of `_get`: the ones whose branch sleeps and
continues the loop instead of raising. -/
def retryable : Attempt → Prop
  | .timeoutErr => True
  | .netErr => True
  | .resp status _ => status = 429

instance (a : Attempt) : Decidable (retryable a) := by
  cases a <;> (unfold retryable; infer_instance)

/-- Per-team outcome of the fetch phase in `main`: `fatal` models the
`SystemExit` that `main` re-raises, `failed` any other exception (logged and
skipped), `ok` a fixture list. -/
inductive TeamFetch
  | fatal
  | failed
  | ok (fetched : List NormalizedFixture)
deriving DecidableEq, Repr

/-- Outcome of a whole `main` run: aborted by `SystemExit` (nothing posted),
or completed with the deduplicated list and whether it is posted to the
sink (`main` skips the POST when no endpoint succeeded or the list is
empty). -/
inductive MainOutcome
  | aborted
  | completed (records : List NormalizedFixture) (posted : Bool)
deriving DecidableEq, Repr

/-- Embedding of the team loop and epilogue of `main` (bot_agenda_futebol.py
lines 574-638): accumulate per-team results, abort the whole run on
`SystemExit`, then dedup and post once at the end. -/
def mainRun (results : List TeamFetch) (acc : List NormalizedFixture)
    (successCount : Nat) : MainOutcome :=
  match results with
  | [] =>
    let ms := dedup acc
    .completed ms (successCount ≠ 0 && !ms.isEmpty)
  | .fatal :: _ => .aborted
  | .failed :: rest => mainRun rest acc successCount
  | .ok ms :: rest => mainRun rest (acc ++ ms) (successCount + 1)

end BotAgenda

namespace SofaScore

/-- Raw SofaScore event payload, restricted to the fields
`_normalize_event` reads. -/
structure SEvent where
  event_id : Option Int
  startTimestamp : Option Int
  homeTeam_name : Option String
  homeTeam_shortName : Option String
  awayTeam_name : Option String
  awayTeam_shortName : Option String
  venue_name : Option String
  tournament_name : Option String
  status_description : Option String
  status_type : Option String
deriving DecidableEq, Repr

/-- One attempt input of `_fetch_team_events`: a network failure or a
response with a status code and (already parsed) event list. -/
inductive SofaInput
  | netError
  | resp (status : Nat) (events : List SEvent)
deriving DecidableEq, Repr

/-- Step outcome of one `_fetch_team_events` attempt, in a shared shape with
the fatal classification of the RapidAPI client so the two 403 policies can
be compared: SofaScore never produces `fatalAbort`. -/
inductive SofaStep
  | fatalAbort
  | result (events : List SEvent)
  | retryStep
deriving DecidableEq, Repr

/-- Embedding of one iteration of `_fetch_team_events`
(sofascore_provider.py lines 90-110): 2xx returns the parsed events; 403 and
404 log a warning and return an empty list for that team; other failures
retry until the attempt budget (`MAX_RETRIES`) is exhausted, then also
return an empty list. -/
def sofaAttempt (inp : SofaInput) (attempt maxRetries : Nat) : SofaStep :=
  match inp with
  | .netError => if attempt = maxRetries then .result [] else .retryStep
  | .resp status events =>
    if status < 400 then .result events
    else if status = 403 ∨ status = 404 then .result []
    else if attempt = maxRetries then .result [] else .retryStep

end SofaScore

namespace Py

/-- Python exception kinds this embedding distinguishes. -/
inductive PyErr
  | nameError (missing : String)
  | valueError
deriving DecidableEq, Repr

/-- Normalized fixture dict shape shared by the scrape providers (ge_globo
and flashscore build records with exactly these string fields). -/
structure ProviderFixture where
  external_id : String
  competition : String
  match_datetime : String
  home_team : String
  away_team : String
  venue : String
  status : String
  source : String
deriving DecidableEq, Repr

/-- Insertion-ordered dict assignment on string-to-string association lists
(dict-comprehension semantics: an existing key keeps its position, its value
is overwritten). -/
def assocUpsert : List (String × String) → String → String → List (String × String)
  | [], k, v => [(k, v)]
  | (k0, v0) :: t, k, v =>
    if k0 = k then (k0, v) :: t else (k0, v0) :: assocUpsert t k v

end Py

namespace GeGlobo

open Py

/-- Combining marks (Unicode category Mn) produced by the decompositions in
`nfdTable`. -/
def combiningMarks : List Char :=
  ['̀', '́', '̂', '̃', '̈', '̧']

/-- Canonical decompositions (NFD) for the accented Latin letters appearing
in this repository's data and inputs; other characters decompose to
themselves. -/
def nfdTable : List (Char × Char × Char) :=
  [('á', 'a', '́'), ('à', 'a', '̀'), ('â', 'a', '̂'),
   ('ã', 'a', '̃'), ('ä', 'a', '̈'),
   ('é', 'e', '́'), ('è', 'e', '̀'), ('ê', 'e', '̂'),
   ('ë', 'e', '̈'),
   ('í', 'i', '́'), ('ì', 'i', '̀'), ('î', 'i', '̂'),
   ('ï', 'i', '̈'),
   ('ó', 'o', '́'), ('ò', 'o', '̀'), ('ô', 'o', '̂'),
   ('õ', 'o', '̃'), ('ö', 'o', '̈'),
   ('ú', 'u', '́'), ('ù', 'u', '̀'), ('û', 'u', '̂'),
   ('ü', 'u', '̈'), ('ç', 'c', '̧'), ('ñ', 'n', '̃'),
   ('Á', 'A', '́'), ('À', 'A', '̀'), ('Â', 'A', '̂'),
   ('Ã', 'A', '̃'), ('É', 'E', '́'), ('Ê', 'E', '̂'),
   ('Í', 'I', '́'), ('Ó', 'O', '́'), ('Ô', 'O', '̂'),
   ('Õ', 'O', '̃'), ('Ú', 'U', '́'), ('Ç', 'C', '̧')]

/-- NFD decomposition of one character
(`unicodedata.normalize("NFD", ...)` restricted to the table above). -/
def nfdChar (c : Char) : List Char :=
  match nfdTable.find? (fun t => t.1 = c) with
  | some t => [t.2.1, t.2.2]
  | none => [c]

/-- Unicode category Mn test for the characters this embedding produces. -/
def isMn (c : Char) : Bool := combiningMarks.contains c

/-- Embedding of `normalize_name_key` (ge_globo_mineiro_provider.py lines
28-34): NFD-decompose, strip combining marks, delete whitespace, hyphens and
underscores, lower-case. -/
def normalize_name_key (name : String) : String :=
  ⟨((((name.toList.map nfdChar).flatten).filter (fun c => !isMn c)).filter
      (fun c => !(pyIsSpace c || c = '-' || c = '_'))).map Char.toLower⟩

/-- `TEAM_ALIASES` of ge_globo_mineiro_provider.py (lines 37-53), in source
order. -/
def TEAM_ALIASES : List (String × String) :=
  [("cruzeiro", "Cruzeiro"), ("cruzeiro ec", "Cruzeiro"),
   ("cruzeiro esporte clube", "Cruzeiro"),
   ("atlético-mg", "Atletico-MG"), ("atletico-mg", "Atletico-MG"),
   ("atlético mineiro", "Atletico-MG"), ("atletico mineiro", "Atletico-MG"),
   ("atlético", "Atletico-MG"), ("galo", "Atletico-MG"),
   ("américa-mg", "America-MG"), ("america-mg", "America-MG"),
   ("américa mineiro", "America-MG"), ("america mineiro", "America-MG"),
   ("américa", "America-MG"), ("coelho", "America-MG")]

/-- `NORMALIZED_ALIASES` (line 55): the dict comprehension keyed by
`normalize_name_key`, with CPython dict-comprehension ordering. -/
def NORMALIZED_ALIASES : List (String × String) :=
  TEAM_ALIASES.foldl (fun m p => assocUpsert m (normalize_name_key p.1) p.2) []

/-- Key list of `NORMALIZED_ALIASES` (iteration order). -/
def aliasKeys : List String := NORMALIZED_ALIASES.map (·.1)

/-- Dict lookup in `NORMALIZED_ALIASES`. -/
def aliasLookup (k : String) : Option String :=
  (NORMALIZED_ALIASES.find? (fun p => p.1 = k)).map (·.2)

/-- Association list from match positions to run lengths, as used inside
`difflib.SequenceMatcher.find_longest_match`. -/
def assocGetNat (m : List (Nat × Nat)) (k : Nat) : Nat :=
  match m.find? (fun p => p.1 = k) with
  | some p => p.2
  | none => 0

/-- Ascending positions of character `c` inside `b[blo:bhi]`
(`b2j` of `difflib.SequenceMatcher`; no junk at these input sizes). -/
def occIdx (b : List Char) (c : Char) (blo bhi : Nat) : List Nat :=
  (List.range b.length).filter (fun j => decide (blo ≤ j) && decide (j < bhi) && b.get? j = some c)

/-- Inner loop of `find_longest_match` for one index `i` of `a`: extend runs
recorded in `j2len` and track the best block (CPython replaces the best only
on strictly larger size, so earliest blocks win ties). -/
def flmInner (i : Nat) (js : List Nat) (j2len : List (Nat × Nat))
    (best : Nat × Nat × Nat) : List (Nat × Nat) × (Nat × Nat × Nat) :=
  js.foldl
    (fun acc j =>
      let k := (if j = 0 then 0 else assocGetNat j2len (j - 1)) + 1
      let acc1 := (j, k) :: acc.1
      if k > acc.2.2.2 then (acc1, (i + 1 - k, j + 1 - k, k)) else (acc1, acc.2))
    ([], best)

/-- Embedding of `difflib.SequenceMatcher.find_longest_match` on
`a[alo:ahi]` and `b[blo:bhi]` (junk-free case): returns (i, j, size). -/
def findLongestMatch (a b : List Char) (alo ahi blo bhi : Nat) : Nat × Nat × Nat :=
  ((List.range' alo (ahi - alo)).foldl
    (fun (st : List (Nat × Nat) × Nat × Nat × Nat) i =>
      match a.get? i with
      | none => ([], st.2)
      | some c => flmInner i (occIdx b c blo bhi) st.1 st.2)
    ([], (alo, blo, 0))).2

/-- Total size of the matching blocks of `SequenceMatcher
.get_matching_blocks` (recursive longest-match decomposition); `fuel` is a
structural bound, `a.length + b.length + 1` at the top call. -/
def matchBlocksTotal (a b : List Char) : Nat → Nat → Nat → Nat → Nat → Nat
  | _, _, _, _, 0 => 0
  | alo, ahi, blo, bhi, fuel + 1 =>
    let r := findLongestMatch a b alo ahi blo bhi
    if r.2.2 = 0 then 0
    else
      r.2.2 + matchBlocksTotal a b alo r.1 blo r.2.1 fuel +
        matchBlocksTotal a b (r.1 + r.2.2) ahi (r.2.1 + r.2.2) bhi fuel

/-- Twice the matched size, the numerator of `SequenceMatcher.ratio()`
(`ratio = 2*M/T`); kept integral so the 0.75 cutoff compares exactly. -/
def simScore (a b : List Char) : Nat :=
  2 * matchBlocksTotal a b 0 a.length 0 b.length (a.length + b.length + 1)

/-- Embedding of `difflib.get_close_matches(word, cands, n=1, cutoff=0.75)`:
keep candidates with ratio ≥ 3/4 (the quick-ratio prefilters are upper
bounds of ratio, so they never reject a candidate this filter accepts) and
return the best, earliest on ties as `heapq.nlargest` is stable. -/
def getCloseMatch (word : String) (cands : List String) : Option String :=
  let w := word.toList
  (cands.foldl
    (fun (best : Option (String × Nat × Nat)) c =>
      let cl := c.toList
      let num := simScore cl w
      let den := cl.length + w.length
      if den = 0 ∨ 4 * num ≥ 3 * den then
        match best with
        | none => some (c, num, den)
        | some (_, n0, d0) =>
          if num * d0 > n0 * den then some (c, num, den) else best
      else best)
    none).map (·.1)

/-- Embedding of `canonicalize` (ge_globo_mineiro_provider.py lines 58-70):
exact normalized-key match, then substring scan in table order, then fuzzy
match at cutoff 0.75, else the stripped input. -/
def canonicalize (name : String) : String :=
  if name = "" then name
  else
    let normalized := normalize_name_key name
    match aliasLookup normalized with
    | some v => v
    | none =>
      match NORMALIZED_ALIASES.find? (fun p => strContains normalized p.1) with
      | some p => p.2
      | none =>
        match getCloseMatch normalized aliasKeys with
        | some k =>
          match aliasLookup k with
          | some v => v
          | none => pyStrip name
        | none => pyStrip name

/-- Embedding of `strptime(f"{day:02d}/{month:02d}/{year:04d} {time_token}",
"%d/%m/%Y %H:%M")` as called by `_build_datetime_from_tokens`: the padded
day/month/year round-trip through the format exactly when they are in range
(including the calendar check the `datetime` constructor performs), and the
time token must fully match `%H:%M`. -/
def strptimeDMYHM (day month : Int) (year : Nat) (timeToken : String) : Option PyDateTime :=
  match parseTimeHM timeToken with
  | none => none
  | some (h, mi) =>
    if 1 ≤ day ∧ 1 ≤ month ∧ month ≤ 12 ∧ 1 ≤ year ∧ year ≤ 9999 ∧
       day ≤ (daysInMonth year month.toNat : Int) then
      some ⟨year, month.toNat, day.toNat, h, mi, 0, none⟩
    else none

/-- The `day, month = [int(x) for x in date_token.split("/")]` prologue of
`_build_datetime_from_tokens`; `none` models the caught exception. -/
def parseDayMonth (tok : String) : Option (Int × Int) :=
  match pySplitChar '/' tok with
  | [a, b] =>
    match pyInt a, pyInt b with
    | some da, some mo => some (da, mo)
    | _, _ => none
  | _ => none

/-- `sorted({date_from.year, date_to.year})`. -/
def candidateYears (a b : Nat) : List Nat :=
  if a = b then [a] else if a < b then [a, b] else [b, a]

/-- Candidate-year loop of `_build_datetime_from_tokens`: first year whose
date both parses and falls inside the window wins. -/
def tryYears (day month : Int) (timeToken : String) (dateFrom dateTo : PyDate) :
    List Nat → Option PyDateTime
  | [] => none
  | y :: ys =>
    match strptimeDMYHM day month y timeToken with
    | none => tryYears day month timeToken dateFrom dateTo ys
    | some dt =>
      if dateLE dateFrom dt.dateOf ∧ dateLE dt.dateOf dateTo then some (localizeSP dt)
      else tryYears day month timeToken dateFrom dateTo ys

/-- Embedding of `_build_datetime_from_tokens` (ge_globo_mineiro_provider.py
lines 408-425). -/
def _build_datetime_from_tokens (dateToken timeToken : String)
    (dateFrom dateTo : PyDate) : Option PyDateTime :=
  match parseDayMonth dateToken with
  | none => none
  | some dm =>
    match tryYears dm.1 dm.2 timeToken dateFrom dateTo
        (candidateYears dateFrom.year dateTo.year) with
    | some dt => some dt
    | none =>
      match candidateYears dateFrom.year dateTo.year with
      | [] => none
      | y0 :: _ => (strptimeDMYHM dm.1 dm.2 y0 timeToken).map localizeSP

/-- Raw event dict as `_normalize_event` consumes it (DOM cards carry
`date`/`time`/`stadium`, JSON-LD events carry `startDate`/`homeTeam`/...). -/
structure GeRawEvent where
  match_datetime : Option String
  startDate : Option String
  startTime : Option String
  date : Option String
  time : Option String
  home_team : Option String
  homeTeam : Option String
  home : Option String
  away_team : Option String
  awayTeam : Option String
  away : Option String
  stadium : Option String
  eventStatus : Option String
  status : Option String
deriving DecidableEq, Repr

/-- Model of `dateutil.parser.parse` on the ISO-8601 timestamps the page's
JSON-LD carries (the only fully-qualified shape this provider receives). -/
def dateutilParse (s : String) : Option PyDateTime := fromIsoSubset s

/-- Python `canonicalize(x or ...)` with a missing/falsy chain collapsed to
the empty string: `canonicalize(None)` returns `None` and the caller then
rejects falsy names, so mapping both to `""` is faithful. -/
def canonicalizeOr (o : Option String) : String :=
  match o with
  | none => ""
  | some s => canonicalize s

/-- The SHA-1 hex digest of `_build_external_id`, modelled as an injective
tagging of the pre-hash base string: no claim inspects digest values, only
equality of ids derived from equal bases. -/
def sha1hex (s : String) : String := "sha1|" ++ s

/-- Embedding of `_build_external_id` (lines 434-436). -/
def _build_external_id (dtStr home away venue : String) : String :=
  sha1hex (pyLower ("ge_mineiro|Campeonato Mineiro|" ++ dtStr ++ "|" ++ home ++ "|" ++ away
    ++ "|" ++ venue))

/-- Embedding of `_normalize_event` (ge_globo_mineiro_provider.py lines
363-405).  The second component records whether the lower-severity signal
`[WARN] Horário não informado...` was emitted. -/
def _normalize_event (e : GeRawEvent) (dateFrom dateTo : PyDate) :
    Option ProviderFixture × Bool :=
  let rawDt := pyOrS e.match_datetime (pyOrS e.startDate e.startTime)
  let dt0 : Option PyDateTime :=
    match rawDt with
    | some s => dateutilParse s
    | none => none
  let step : Option PyDateTime × Bool :=
    match dt0 with
    | some dt => (some dt, false)
    | none =>
      match pyOrS e.date none with
      | none => (none, false)
      | some dateToken =>
        let timeToken := pyOrDefault e.time ("00:00")
        let dt1 := _build_datetime_from_tokens dateToken timeToken dateFrom dateTo
        (dt1, dt1.isSome && (timeToken = "00:00"))
  match step.1 with
  | none => (none, step.2)
  | some dt =>
    let dtz :=
      match dt.tz with
      | none => localizeSP dt
      | some _ => astimezoneSP dt
    let dtStr := fmtDateTime dtz
    let home := canonicalizeOr (pyOrS e.home_team (pyOrS e.homeTeam e.home))
    let away := canonicalizeOr (pyOrS e.away_team (pyOrS e.awayTeam e.away))
    if home = "" ∨ away = "" then (none, step.2)
    else
      let venue := pyOrDefault e.stadium ""
      (some { external_id := _build_external_id dtStr home away venue
              competition := "Campeonato Mineiro"
              match_datetime := dtStr
              home_team := home
              away_team := away
              venue := venue
              status := pyOrDefault (pyOrS e.eventStatus e.status) ("scheduled")
              source := "ge.globo.com" }, step.2)

/-- A fetched GE page, abstracted to what each extraction strategy would
yield on it: `dom` is the result of `_extract_matches_from_dom`, `jsonld`
what the JSON-LD strategy would return, `scripted` the result of
`_extract_matches_from_scripts`. -/
structure GePage where
  dom : List GeRawEvent
  jsonld : List GeRawEvent
  scripted : List GeRawEvent
deriving DecidableEq, Repr

/-- Embedding of `_extract_matches` (ge_globo_mineiro_provider.py lines
160-172): the DOM strategy is consulted first and its non-empty result is
returned; otherwise the next statement calls `_extract_jsonld(soup)`, a name
this module never defines (the sibling ge_mineiro module defines
`_extract_jsonld_matches` instead), so execution raises `NameError` before
any further strategy can run. -/
def _extract_matches (p : GePage) : Except PyErr (List GeRawEvent) :=
  if p.dom ≠ [] then .ok p.dom
  else .error (.nameError ("_extract_jsonld"))

/-- Modelled from the spec: the extraction orchestrator as the claim states
it, with the structured-data strategies (JSON-LD, then script-embedded
payloads) first and the DOM heuristics second; the first strategy returning
a non-empty sequence supplies the result. -/
def specStructuredFirst (p : GePage) : List GeRawEvent :=
  if p.jsonld ≠ [] then p.jsonld
  else if p.scripted ≠ [] then p.scripted
  else if p.dom ≠ [] then p.dom
  else []

/-- One top-level statement of a Python module: a plain binding
(import/assignment) or a `def` whose annotations reference the given names
when the `def` statement executes. -/
inductive PyStmt
  | bind (name : String)
  | defAnn (name : String) (annNames : List String)
deriving DecidableEq, Repr

/-- Builtins referenced by the module's annotations. -/
def builtinNames : List String :=
  ["str", "int", "float", "bool", "set", "dict", "None"]

/-- Module execution: each statement binds its name; a `def` first evaluates
its annotations, raising `NameError` on the first missing name; the module
load then aborts and none of its names become available to importers. -/
def execStmts : List PyStmt → List String → Except String (List String)
  | [], env => .ok env
  | .bind n :: rest, env => execStmts rest (env ++ [n])
  | .defAnn n anns :: rest, env =>
    match anns.find? (fun a => !(env.contains a || builtinNames.contains a)) with
    | some missing => .error (("NameError: name ") ++ missing ++ (" is not defined"))
    | none => execStmts rest (env ++ [n])

/-- Top-level statements of ge_globo_mineiro_provider.py in source order:
the names brought in at lines 1-16 (`Tuple` is absent from the `typing`
clause of line 11), the module constants (lines 18-25), and each `def` with
the names its parameter/return annotations reference. -/
def geGloboStatements : List PyStmt :=
  [.bind ("difflib"), .bind ("hashlib"), .bind ("json"), .bind ("logging"),
   .bind ("os"), .bind ("re"), .bind ("unicodedata"), .bind ("Counter"),
   .bind ("date"), .bind ("datetime"), .bind ("timedelta"), .bind ("Path"),
   .bind ("Dict"), .bind ("List"), .bind ("Optional"),
   .bind ("pytz"), .bind ("requests"), .bind ("BeautifulSoup"), .bind ("dateparser"),
   .bind ("log"), .bind ("GE_URL"), .bind ("COMPETITION_NAME"), .bind ("TZ"),
   .bind ("CACHE_DIR"), .bind ("CACHE_FILE"), .bind ("DEBUG_HTML_PATH"),
   .defAnn ("normalize_name_key") ["str"],
   .bind ("TEAM_ALIASES"), .bind ("NORMALIZED_ALIASES"),
   .defAnn ("canonicalize") ["str"],
   .defAnn ("_normalized_for_comparison") ["str"],
   .defAnn ("fetch_matches") ["List", "str", "date", "Dict"],
   .defAnn ("_load_ge_page") ["Optional", "str"],
   .defAnn ("_log_round_counts") ["BeautifulSoup"],
   .defAnn ("_extract_matches") ["str", "BeautifulSoup", "List", "Dict"],
   .defAnn ("_extract_matches_from_dom") ["BeautifulSoup", "List", "Dict", "str"],
   .defAnn ("_locate_jogos_sections") ["BeautifulSoup", "List"],
   .defAnn ("_parse_section_matches") ["BeautifulSoup", "List", "Dict", "str"],
   .defAnn ("_find_candidate_cards") ["BeautifulSoup", "List"],
   .defAnn ("_parse_game_card") ["BeautifulSoup", "Optional", "Dict", "str"],
   .defAnn ("_find_teams_line") ["List", "str", "Optional"],
   .defAnn ("_extract_team_names") ["str", "Tuple", "Optional"],
   .defAnn ("_extract_matches_from_scripts") ["BeautifulSoup", "List", "Dict", "str"],
   .defAnn ("_extract_json_payload_from_script") ["str", "Optional"],
   .defAnn ("_consume_braced_fragment") ["str", "int", "Optional"],
   .defAnn ("_collect_events_from_json") ["List", "Dict", "str"],
   .defAnn ("_parse_date_time_from_text") ["str", "Tuple", "Optional"],
   .defAnn ("_parse_stadium_from_lines") ["List", "str", "Optional"],
   .defAnn ("_parse_stadium_from_text") ["str", "Optional"],
   .defAnn ("_normalize_event") ["Dict", "str", "date", "Optional"],
   .defAnn ("_build_datetime_from_tokens") ["str", "date", "Optional", "datetime"],
   .defAnn ("_is_target_match") ["Dict", "str", "set", "bool"],
   .defAnn ("_build_external_id") ["str"],
   .defAnn ("_diagnose_missing_data") ["str", "BeautifulSoup"]]

/-- Import of the ge_globo_mineiro_provider module. -/
def importGeGlobo : Except String (List String) :=
  execStmts geGloboStatements []

end GeGlobo

namespace Py

/-- Value of a string of decimal digits (Python `int` on a regex group). -/
def digitsToNat (s : String) : Nat :=
  s.toList.foldl (fun a c => a * 10 + dval c) 0

/-- Formatter `strftime("%Y-%m-%d")`. -/
def fmtDate (d : PyDate) : String :=
  ⟨pad4L d.year ++ '-' :: pad2L d.month ++ '-' :: pad2L d.day⟩

/-- Python `str.find(needle, start)` when it does not return -1. -/
def findFrom (l needle : List Char) (start : Nat) : Option Nat :=
  (findSubIdx needle (l.drop start)).map (· + start)

end Py

namespace FlashScore

open Py

/-- `TEAM_ALIASES` of flashscore_provider.py (lines 34-52),
in source order.  Note the keys keep their hyphens, spaces and accents as
written in the source. -/
def TEAM_ALIASES : List (String × String) :=
  [("cruzeiro", "Cruzeiro"), ("cruzeiro ec", "Cruzeiro"),
   ("cruzeiro esporte clube", "Cruzeiro"),
   ("atletico-mg", "Atletico-MG"), ("atlético-mg", "Atletico-MG"),
   ("atletico mineiro", "Atletico-MG"), ("atlético mineiro", "Atletico-MG"),
   ("atletico", "Atletico-MG"), ("atlético", "Atletico-MG"),
   ("galo", "Atletico-MG"),
   ("america-mg", "America-MG"), ("américa-mg", "America-MG"),
   ("america mineiro", "America-MG"), ("américa mineiro", "America-MG"),
   ("america", "America-MG"), ("américa", "America-MG"),
   ("coelho", "America-MG")]

/-- Embedding of `_normalized_key` (flashscore_provider.py lines 55-60):
NFD-decompose, strip combining marks, lower-case, keep alphanumerics only.
The `unicodedata` model is shared with the GeGlobo embedding. -/
def _normalized_key (v : Option String) : String :=
  match v with
  | none => ""
  | some s =>
    if s = "" then ""
    else
      ⟨((((s.toList.map GeGlobo.nfdChar).flatten).filter
          (fun c => !GeGlobo.isMn c)).map Char.toLower).filter Char.isAlphanum⟩

/-- Embedding of `_canonicalize_team` (lines 63-65): a single exact dict
lookup of the alnum-normalized key, defaulting to the stripped input. -/
def _canonicalize_team (name : String) : String :=
  match (TEAM_ALIASES.find? (fun p => p.1 = _normalized_key (some name))).map (·.2) with
  | some v => v
  | none => pyStrip name

/-- One match attempt of `DATE_REGEX = (\d{1,2})[./](\d{1,2})` at the head of
the list: returns the two group texts and the match length, with the
backtracking behaviour of the Python `re` engine. -/
def dateMatchAt (l : List Char) : Option (String × String × Nat) :=
  match l with
  | a :: rest =>
    if !a.isDigit then none
    else
      let try2 : Option (String × List Char × Nat) :=
        match rest with
        | b :: c :: rest2 =>
          if b.isDigit ∧ (c = '.' ∨ c = '/') then some (⟨[a, b]⟩, rest2, 3) else none
        | _ => none
      let g1r : Option (String × List Char × Nat) :=
        match try2 with
        | some r => some r
        | none =>
          match rest with
          | c :: rest2 => if (c = '.' ∨ c = '/') then some (⟨[a]⟩, rest2, 2) else none
          | _ => none
      match g1r with
      | none => none
      | some (g1, rest2, len1) =>
        match rest2 with
        | d0 :: d1 :: _ =>
          if d0.isDigit then
            if d1.isDigit then some (g1, ⟨[d0, d1]⟩, len1 + 2)
            else some (g1, ⟨[d0]⟩, len1 + 1)
          else none
        | [d0] => if d0.isDigit then some (g1, ⟨[d0]⟩, len1 + 1) else none
        | [] => none
  | [] => none

/-- `DATE_REGEX.search`: leftmost match, returning the group texts and the
end index of the match (`match.end()`). -/
def dateSearchAux : List Char → Nat → Option (String × String × Nat)
  | [], _ => none
  | a :: t, pos =>
    match dateMatchAt (a :: t) with
    | some (g1, g2, len) => some (g1, g2, pos + len)
    | none => dateSearchAux t (pos + 1)

/-- One match attempt of `TIME_REGEX = (\d{1,2}):(\d{2})` at the head of the
list: the two group texts, with the regex engine's backtracking. -/
def timeMatchAt (l : List Char) : Option (String × String) :=
  match l with
  | a :: rest =>
    if !a.isDigit then none
    else
      let g1r : Option (String × List Char) :=
        match rest with
        | b :: c :: rest2 =>
          if b.isDigit ∧ c = ':' then some (⟨[a, b]⟩, rest2)
          else if b = ':' then some (⟨[a]⟩, c :: rest2)
          else none
        | [_] => none
        | [] => none
      match g1r with
      | none => none
      | some (g1, rest2) =>
        match rest2 with
        | d0 :: d1 :: _ =>
          if d0.isDigit ∧ d1.isDigit then some (g1, ⟨[d0, d1]⟩) else none
        | _ => none
  | [] => none

/-- `TIME_REGEX.search`: leftmost match. -/
def timeSearchAux : List Char → Option (String × String)
  | [] => none
  | a :: t =>
    match timeMatchAt (a :: t) with
    | some r => some r
    | none => timeSearchAux t

/-- A FlashScore DOM card, abstracted to the attribute/selector reads
`_parse_match_card` and its helpers perform: each field is the text the
corresponding attribute lookup or CSS selector would produce (`none` when
the attribute/node is absent). -/
structure FsCard where
  data_event_date : Option String
  data_date : Option String
  calendar_date_text : Option String
  data_event_time : Option String
  data_time : Option String
  event_time_text : Option String
  text : String
  home_sel_name : Option String
  home_sel_plain : Option String
  away_sel_name : Option String
  away_sel_plain : Option String
  participants : List String
  comp_type : Option String
  comp_stage : Option String
  venue1 : Option String
  venue2 : Option String
  data_event_id : Option String
  id_attr : Option String
deriving DecidableEq, Repr

/-- Embedding of `_extract_date_token` (flashscore_provider.py lines
162-177): data attributes first, then the calendar-row date node, then the
card's flattened text, reassembling `"{g1}.{g2}"` from the regex groups. -/
def _extract_date_token (c : FsCard) : Option String :=
  match pyOrS c.data_event_date c.data_date with
  | some v => some v
  | none =>
    let fromText : Option String :=
      match dateSearchAux c.text.toList 0 with
      | some (g1, g2, _) => some (g1 ++ "." ++ g2)
      | none => none
    match c.calendar_date_text with
    | some t =>
      match dateSearchAux t.toList 0 with
      | some (g1, g2, _) => some (g1 ++ "." ++ g2)
      | none => fromText
    | none => fromText

/-- Embedding of `_extract_time_token` (lines 180-193).  Note the source
returns `group(1)` — the hour digits only — from both regex branches. -/
def _extract_time_token (c : FsCard) : Option String :=
  match pyOrS c.data_event_time c.data_time with
  | some v => some v
  | none =>
    let fromText : Option String :=
      match timeSearchAux c.text.toList with
      | some (g1, _) => some g1
      | none => none
    match c.event_time_text with
    | some t =>
      match timeSearchAux t.toList with
      | some (g1, _) => some g1
      | none => fromText
    | none => fromText

/-- Embedding of `_extract_participant` (lines 196-213): two role selectors
in order, then the positional fallback over `.event__participant` nodes. -/
def _extract_participant (c : FsCard) (role : String) : Option String :=
  let sel1 := if role = "home" then c.home_sel_name else c.away_sel_name
  let sel2 := if role = "home" then c.home_sel_plain else c.away_sel_plain
  match pyOrS sel1 (pyOrS sel2 none) with
  | some v => some v
  | none =>
    if c.participants.length ≥ 2 then
      let t := ((if role = "home" then c.participants.get? 0 else c.participants.get? 1).getD "")
      if t ≠ "" then some t else none
    else none

/-- Embedding of `_extract_text` (lines 216-223) for a two-selector list. -/
def _extract_text2 (a b : Option String) : String :=
  pyOrDefault a (pyOrDefault b "")

/-- Prefix match of `^(\d{4})-(\d{2})-(\d{2})` (`re.match`, trailing input
allowed), as in `_parse_date_token`'s ISO branch; no range validation. -/
def isoPrefixMatch : List Char → Option (Nat × Nat × Nat)
  | y1 :: y2 :: y3 :: y4 :: '-' :: m1 :: m2 :: '-' :: d1 :: d2 :: _ =>
    if ([y1, y2, y3, y4, m1, m2, d1, d2].all Char.isDigit) then
      some (1000 * dval y1 + 100 * dval y2 + 10 * dval y3 + dval y4,
            10 * dval m1 + dval m2, 10 * dval d1 + dval d2)
    else none
  | _ => none

/-- Embedding of `_parse_date_token` (flashscore_provider.py lines 226-235):
ISO prefix gives `(year, month, day)`; the day/month regex gives
`(None, month, day)` via `(None, int(g2), int(g1))`. -/
def _parse_date_token (token : String) : Option (Option Nat × Nat × Nat) :=
  if token = "" then none
  else
    match isoPrefixMatch token.toList with
    | some (y, m, d) => some (some y, m, d)
    | none =>
      match dateSearchAux token.toList 0 with
      | some (g1, g2, _) => some (none, digitsToNat g2, digitsToNat g1)
      | none => none

/-- Embedding of `_build_datetime` (flashscore_provider.py lines 247-250).
The source body is only the parse and the `if not parsed: return None`
guard: the statements that would consume `parsed` sit at lines 341-363,
after the unconditional returns of `_infer_year`, so they belong to that
function and are unreachable.  `_build_datetime` therefore falls off its end
and returns `None` on every input. -/
def _build_datetime (dateToken _timeToken : Option String)
    (_dateFrom _dateTo : PyDate) : Option PyDateTime :=
  match _parse_date_token (dateToken.getD "") with
  | none => none
  | some _ => none

/-- Embedding of `_parse_match_card` (flashscore_provider.py lines 130-159). -/
def _parse_match_card (c : FsCard) (dateFrom dateTo : PyDate) : Option ProviderFixture :=
  match _build_datetime (_extract_date_token c) (_extract_time_token c) dateFrom dateTo with
  | none => none
  | some dt =>
    match _extract_participant c ("home"), _extract_participant c ("away") with
    | some home, some away =>
      let competition := _extract_text2 c.comp_type c.comp_stage
      let venue := _extract_text2 c.venue1 c.venue2
      let event_id := pyOrS c.data_event_id c.id_attr
      let fallbackKey := pyLower (fmtDateTime dt ++ "|" ++ home ++ "|" ++ away)
      let key := pyLower (event_id.getD fallbackKey)
      some { external_id := ("flashscore|" ++ key)
             competition := if competition ≠ "" then competition else "FlashScore"
             match_datetime := fmtDateTime dt
             home_team := _canonicalize_team home
             away_team := _canonicalize_team away
             venue := venue
             status := "scheduled"
             source := "flashscore.com" }
    | _, _ => none

/-- Embedding of `_extract_upcoming_section` (lines 270-285): first marker
present wins; the cut-off is the first end-marker (in list order) found
after it. -/
def sectionFor (l : List Char) (marker : String) : Option String :=
  match findSubIdx marker.toList l with
  | none => none
  | some s =>
    let start := s + marker.toList.length
    let stop :=
      (["Show more", "Mostrar mais", "See more", "Ver mais"].findSome?
        (fun m => findFrom l m.toList start)).getD l.length
    some (pyStrip ⟨(l.take stop).drop start⟩)

/-- Embedding of `_extract_upcoming_section`'s marker loop. -/
def _extract_upcoming_section (text : String) : String :=
  (["Upcoming matches:", "Próximas partidas:"].findSome?
    (sectionFor text.toList)).getD ""

/-- Embedding of `_split_teams` (lines 319-326): first separator contained
in the text splits once. -/
def _split_teams (text : String) : Option (String × String) :=
  [" v ", " x ", " - "].findSome? (fun sep =>
    if strContains text sep then
      match splitOnceStr text sep with
      | some ab => some (pyStrip ab.1, pyStrip ab.2)
      | none => none
    else none)

/-- Fallback year of `_infer_year` (lines 338-340): December-start windows
whose token month does not exceed the end month take the end year, otherwise
the start year. -/
def inferFallback (month : Nat) (dateFrom dateTo : PyDate) : Nat :=
  if dateFrom.month = 12 ∧ month ≤ dateTo.month then dateTo.year else dateFrom.year

/-- Candidate loop of `_infer_year` (lines 330-337): first endpoint year
whose date both constructs (`date()` raises outside `validDate`) and falls
inside the window. -/
def inferLoop (day month : Nat) (dateFrom dateTo : PyDate) : List Nat → Nat
  | [] => inferFallback month dateFrom dateTo
  | y :: ys =>
    if validDate ⟨y, month, day⟩ then
      if dateLE dateFrom ⟨y, month, day⟩ ∧ dateLE ⟨y, month, day⟩ dateTo then y
      else inferLoop day month dateFrom dateTo ys
    else inferLoop day month dateFrom dateTo ys

/-- Embedding of `_infer_year` (flashscore_provider.py lines 329-340; the
code at lines 341-363 after its unconditional returns is unreachable).  The
source's `Optional[int]` annotation notwithstanding, every path returns an
int, so the caller's `is None` guard is dead and the embedding is total. -/
def _infer_year (day month : Nat) (dateFrom dateTo : PyDate) : Nat :=
  inferLoop day month dateFrom dateTo (GeGlobo.candidateYears dateFrom.year dateTo.year)

/-- The `datetime(day_year, month, day, 12, 0)` constructor call of
`_parse_text_item`: noon, with the constructor's `ValueError` uncaught. -/
def mkDatetimeNoon (year month day : Nat) : Except PyErr PyDateTime :=
  if validDate ⟨year, month, day⟩ then .ok ⟨year, month, day, 12, 0, 0, none⟩
  else .error .valueError

/-- Embedding of `_parse_text_item` (flashscore_provider.py lines 288-316). -/
def _parse_text_item (item : String) (dateFrom dateTo : PyDate) :
    Except PyErr (Option ProviderFixture) :=
  match dateSearchAux item.toList 0 with
  | none => .ok none
  | some (g1, g2, endIdx) =>
    let day := digitsToNat g1
    let month := digitsToNat g2
    let rest := pyStripChars (" .-–•") ⟨item.toList.drop endIdx⟩
    match _split_teams rest with
    | none => .ok none
    | some teams =>
      let dayYear := _infer_year day month dateFrom dateTo
      match mkDatetimeNoon dayYear month day with
      | .error e => .error e
      | .ok dt0 =>
        let dt := localizeSP dt0
        let home := _canonicalize_team teams.1
        let away := _canonicalize_team teams.2
        let dateKey := fmtDate dt.dateOf
        .ok (some { external_id := ("flashscore|" ++ dateKey ++ "|" ++ home ++ "|" ++ away)
                    competition := "FlashScore"
                    match_datetime := fmtDateTime dt
                    home_team := home
                    away_team := away
                    venue := ""
                    status := "scheduled"
                    source := "flashscore.com" })

/-- Item loop of `_parse_flashscore_text_fallback`, propagating the uncaught
`ValueError` of the `datetime` constructor. -/
def collectItems (dateFrom dateTo : PyDate) : List String → Except PyErr (List ProviderFixture)
  | [] => .ok []
  | it :: rest =>
    match _parse_text_item it dateFrom dateTo with
    | .error e => .error e
    | .ok none => collectItems dateFrom dateTo rest
    | .ok (some f) =>
      match collectItems dateFrom dateTo rest with
      | .error e => .error e
      | .ok fs => .ok (f :: fs)

/-- Embedding of `_parse_flashscore_text_fallback` (lines 253-267), over the
page's flattened text. -/
def _parse_flashscore_text_fallback (text : String) (dateFrom dateTo : PyDate) :
    Except PyErr (List ProviderFixture) :=
  let sect := _extract_upcoming_section text
  if sect = "" then .ok []
  else
    collectItems dateFrom dateTo (((pySplitChar ',' sect).map pyStrip).filter (fun s => s ≠ ""))

/-- A fetched FlashScore page: the `div.event__match` cards and the
flattened text the fallback scans. -/
structure FsPage where
  cards : List FsCard
  text : String
deriving DecidableEq, Repr

/-- Embedding of `_parse_flashscore_matches` (flashscore_provider.py lines
114-127): parse every card, return those results when any card parsed,
otherwise run the text fallback. -/
def _parse_flashscore_matches (p : FsPage) (dateFrom dateTo : PyDate) :
    Except PyErr (List ProviderFixture) :=
  let ms := p.cards.filterMap (fun c => _parse_match_card c dateFrom dateTo)
  if ms ≠ [] then .ok ms
  else _parse_flashscore_text_fallback p.text dateFrom dateTo

end FlashScore

namespace GeGlobo

/-- Raw event with every field absent, for building concrete events. -/
def emptyRawEvent : GeRawEvent :=
  { match_datetime := none, startDate := none, startTime := none, date := none,
    time := none, home_team := none, homeTeam := none, home := none,
    away_team := none, awayTeam := none, away := none, stadium := none,
    eventStatus := none, status := none }

end GeGlobo

open Py

/-- C10: the ge_globo_mineiro_provider module cannot be loaded: `Tuple` is
used in the return annotation of `_extract_team_names` (line 252) without
being imported from `typing`, the annotation is evaluated when the `def`
statement executes, and the resulting `NameError` aborts the import, so no
name of the module (in particular `fetch_matches` and `canonicalize`)
becomes available to importers. -/
theorem c10_module_import_fails :
    GeGlobo.importGeGlobo = Except.error ("NameError: name Tuple is not defined") ∧
    (∀ env, GeGlobo.importGeGlobo ≠ Except.ok env) := by
  constructor
  · rfl
  · intro env h
    rw [show GeGlobo.importGeGlobo = Except.error ("NameError: name Tuple is not defined") from rfl] at h
    exact Except.noConfusion h

/-- C9: `_build_datetime` of the FlashScore provider returns `None` on every
input (its body ends right after the parse guard, the rest of the intended
construction being unreachable code attached to `_infer_year`); consequently
`_parse_match_card` rejects every DOM card and `_parse_flashscore_matches`
always returns the text-fallback result. -/
theorem c9_build_datetime_always_none :
    (∀ (dTok tTok : Option String) (dateFrom dateTo : PyDate),
      FlashScore._build_datetime dTok tTok dateFrom dateTo = none) ∧
    (∀ (c : FlashScore.FsCard) (dateFrom dateTo : PyDate),
      FlashScore._parse_match_card c dateFrom dateTo = none) ∧
    (∀ (p : FlashScore.FsPage) (dateFrom dateTo : PyDate),
      FlashScore._parse_flashscore_matches p dateFrom dateTo =
        FlashScore._parse_flashscore_text_fallback p.text dateFrom dateTo) := by
  have hb : ∀ (dTok tTok : Option String) (dateFrom dateTo : PyDate),
      FlashScore._build_datetime dTok tTok dateFrom dateTo = none := by
    intro dTok tTok f t
    unfold FlashScore._build_datetime
    cases FlashScore._parse_date_token (dTok.getD "") <;> rfl
  have hc : ∀ (c : FlashScore.FsCard) (dateFrom dateTo : PyDate),
      FlashScore._parse_match_card c dateFrom dateTo = none := by
    intro c f t
    unfold FlashScore._parse_match_card
    rw [hb]
  refine ⟨hb, hc, ?_⟩
  intro p f t
  unfold FlashScore._parse_flashscore_matches
  have : p.cards.filterMap (fun c => FlashScore._parse_match_card c f t) = [] := by
    simp [hc]
  rw [this]
  simp

/-- C1 counterexample: a page on which both the DOM heuristics and the
JSON-LD strategy yield events.  The claim's structured-first orchestrator
would return the JSON-LD result, but `_extract_matches` returns the DOM
result; and on a page where only JSON-LD yields events, the code raises
`NameError` instead of returning them. -/
theorem c1_extraction_order_counterexample :
    GeGlobo._extract_matches
        ⟨[{ GeGlobo.emptyRawEvent with date := some ("A") }],
         [{ GeGlobo.emptyRawEvent with date := some ("B") }], []⟩ =
      Except.ok [{ GeGlobo.emptyRawEvent with date := some ("A") }] ∧
    GeGlobo.specStructuredFirst
        ⟨[{ GeGlobo.emptyRawEvent with date := some ("A") }],
         [{ GeGlobo.emptyRawEvent with date := some ("B") }], []⟩ =
      [{ GeGlobo.emptyRawEvent with date := some ("B") }] ∧
    ([{ GeGlobo.emptyRawEvent with date := some ("A") }] :
        List GeGlobo.GeRawEvent) ≠ [{ GeGlobo.emptyRawEvent with date := some ("B") }] ∧
    GeGlobo._extract_matches
        ⟨[], [{ GeGlobo.emptyRawEvent with date := some ("B") }], []⟩ =
      Except.error (PyErr.nameError ("_extract_jsonld")) := by
  refine ⟨rfl, rfl, by decide, rfl⟩

/-- C1 (amended): in the GE provider the DOM-heuristic strategy is tried
first and supplies the result whenever it is non-empty; when it yields
nothing the orchestrator raises `NameError` (`_extract_jsonld` is
undefined), so the structured strategies are unreachable.  In the FlashScore
provider the DOM-card strategy is tried first and the free-text fallback is
attempted exactly when every card fails to parse. -/
theorem c1_extraction_order_amended :
    (∀ p : GeGlobo.GePage, p.dom ≠ [] → GeGlobo._extract_matches p = Except.ok p.dom) ∧
    (∀ p : GeGlobo.GePage, p.dom = [] →
      GeGlobo._extract_matches p = Except.error (PyErr.nameError ("_extract_jsonld"))) ∧
    (∀ (p : FlashScore.FsPage) (dateFrom dateTo : PyDate),
      (p.cards.filterMap (fun c => FlashScore._parse_match_card c dateFrom dateTo) ≠ [] →
        FlashScore._parse_flashscore_matches p dateFrom dateTo =
          Except.ok (p.cards.filterMap (fun c => FlashScore._parse_match_card c dateFrom dateTo))) ∧
      (p.cards.filterMap (fun c => FlashScore._parse_match_card c dateFrom dateTo) = [] →
        FlashScore._parse_flashscore_matches p dateFrom dateTo =
          FlashScore._parse_flashscore_text_fallback p.text dateFrom dateTo)) := by
  refine ⟨?_, ?_, ?_⟩
  · intro p h
    unfold GeGlobo._extract_matches
    simp [h]
  · intro p h
    unfold GeGlobo._extract_matches
    simp [h]
  · intro p f t
    constructor
    · intro h
      unfold FlashScore._parse_flashscore_matches
      simp [h]
    · intro h
      unfold FlashScore._parse_flashscore_matches
      simp [h]

/-- C1 witness: the amended theorem applied to a one-card DOM page. -/
theorem c1_extraction_order_witness :
    GeGlobo._extract_matches
        ⟨[{ GeGlobo.emptyRawEvent with date := some ("A") }], [], []⟩ =
      Except.ok [{ GeGlobo.emptyRawEvent with date := some ("A") }] :=
  c1_extraction_order_amended.1
    ⟨[{ GeGlobo.emptyRawEvent with date := some ("A") }], [], []⟩ (by decide)

/-- Retry-loop lemma: a 403 response reached after any run of retryable
attempts inside the budget makes `_get` raise `SystemExit`. -/
theorem getRun_403_fatal (pre : List BotAgenda.Attempt) :
    ∀ (a maxR : Nat) (rest : List BotAgenda.Attempt) (b : Bool),
      (∀ o ∈ pre, BotAgenda.retryable o) → a + pre.length ≤ maxR →
      BotAgenda.getRun (pre ++ .resp 403 b :: rest) a maxR = .fatalSystemExit := by
  induction pre with
  | nil =>
    intro a maxR rest b _ hle
    simp only [List.nil_append]
    unfold BotAgenda.getRun
    have h1 : ¬ a > maxR := by simp at hle; omega
    simp [h1]
  | cons o pre ih =>
    intro a maxR rest b hr hle
    have ho : BotAgenda.retryable o := hr o (List.mem_cons_self o pre)
    have hrest : ∀ x ∈ pre, BotAgenda.retryable x := fun x hx => hr x (List.mem_cons_of_mem o hx)
    have hlen : a + (pre.length + 1) ≤ maxR := by simpa [List.length_cons] using hle
    have h1 : ¬ a > maxR := by omega
    have h2 : ¬ a ≥ maxR := by omega
    have hstep : a + 1 + pre.length ≤ maxR := by omega
    cases o with
    | timeoutErr =>
      simp only [List.cons_append]
      unfold BotAgenda.getRun
      simp [h1, h2, ih (a + 1) maxR rest b hrest hstep]
    | netErr =>
      simp only [List.cons_append]
      unfold BotAgenda.getRun
      simp [h1, h2, ih (a + 1) maxR rest b hrest hstep]
    | resp status parseOk =>
      have hs : status = 429 := ho
      subst hs
      simp only [List.cons_append]
      unfold BotAgenda.getRun
      simp [h1, h2, ih (a + 1) maxR rest b hrest hstep]

/-- Main-loop lemma: once any team's fetch raises `SystemExit`, the whole
run aborts and nothing is posted. -/
theorem mainRun_fatal_aborts (results : List BotAgenda.TeamFetch) :
    ∀ (acc : List BotAgenda.NormalizedFixture) (succ : Nat),
      BotAgenda.TeamFetch.fatal ∈ results →
      BotAgenda.mainRun results acc succ = .aborted := by
  induction results with
  | nil => intro acc succ h; exact absurd h (List.not_mem_nil _)
  | cons r rest ih =>
    intro acc succ h
    cases r with
    | fatal => rfl
    | failed =>
      have : BotAgenda.TeamFetch.fatal ∈ rest := by
        rcases List.mem_cons.mp h with h0 | h0
        · exact absurd h0 (by simp)
        · exact h0
      exact ih acc succ this
    | ok ms =>
      have : BotAgenda.TeamFetch.fatal ∈ rest := by
        rcases List.mem_cons.mp h with h0 | h0
        · exact absurd h0 (by simp)
        · exact h0
      exact ih (acc ++ ms) (succ + 1) this

/-- C5 counterexample: a 403 received by the SofaScore fetch is handled as a
per-team skip (an empty result for that team), not as a run abort. -/
theorem c5_abort_on_403_counterexample :
    SofaScore.sofaAttempt (.resp 403 []) 1 3 = .result [] ∧
    SofaScore.sofaAttempt (.resp 403 []) 1 3 ≠ .fatalAbort := by
  refine ⟨rfl, by decide⟩

/-- C5 (amended): a 403 received by the RapidAPI client's `_get` raises
`SystemExit` regardless of where it occurs in the retry sequence, and
`main` re-raises that `SystemExit` before anything is posted to the sink;
the SofaScore provider's `_fetch_team_events`, by contrast, treats 403 (like
404) as a per-team failure, returning an empty list and letting the run
continue. -/
theorem c5_abort_on_403_amended :
    (∀ (pre rest : List BotAgenda.Attempt) (a maxR : Nat) (b : Bool),
      (∀ o ∈ pre, BotAgenda.retryable o) → a + pre.length ≤ maxR →
      BotAgenda.getRun (pre ++ .resp 403 b :: rest) a maxR = .fatalSystemExit) ∧
    (∀ (results : List BotAgenda.TeamFetch) (acc : List BotAgenda.NormalizedFixture)
      (succ : Nat), BotAgenda.TeamFetch.fatal ∈ results →
      BotAgenda.mainRun results acc succ = .aborted) ∧
    (∀ (events : List SofaScore.SEvent) (attempt maxRetries : Nat),
      SofaScore.sofaAttempt (.resp 403 events) attempt maxRetries = .result []) := by
  refine ⟨fun pre rest a maxR b hr hle => getRun_403_fatal pre a maxR rest b hr hle,
          fun results acc succ h => mainRun_fatal_aborts results acc succ h,
          ?_⟩
  intro events attempt maxRetries
  unfold SofaScore.sofaAttempt
  norm_num

/-- C5 witness: the amended theorem applied to a first-attempt 403 and a
one-team run. -/
theorem c5_abort_on_403_witness :
    BotAgenda.getRun [.resp 403 true] 1 3 = .fatalSystemExit ∧
    BotAgenda.mainRun [.fatal] [] 0 = .aborted := by
  constructor
  · have := c5_abort_on_403_amended.1 [] [.resp 403 true] 1 3 true ?hr ?hl
    case hr => intro o ho; exact absurd ho (List.not_mem_nil o)
    case hl => simp
    simpa using this
  · exact c5_abort_on_403_amended.2.1 [.fatal] [] 0 (List.mem_singleton.mpr rfl)

/-- C6: canonicalization is idempotent across the providers, but the
FlashScore implementation is not alias-consistent: `_canonicalize_team`
looks its alnum-normalized key up in `TEAM_ALIASES`, whose written keys keep
their spaces, hyphens and accents, so the alias entry
`("atletico mineiro", "Atletico-MG")` — present in the table itself — can
never match and the input comes back unchanged, while `"galo"` still maps to
`"Atletico-MG"`.  The GE provider's `canonicalize` meets the claim on the
same inputs.  This theorem evaluates the code at the failing input. -/
theorem c6_canonicalize_alias_bug :
    FlashScore._canonicalize_team ("atletico mineiro") = "atletico mineiro" ∧
    FlashScore._canonicalize_team ("galo") = "Atletico-MG" ∧
    FlashScore._canonicalize_team ("Atlético-MG") = "Atlético-MG" ∧
    ("atletico mineiro", "Atletico-MG") ∈ FlashScore.TEAM_ALIASES ∧
    ("atletico mineiro" : String) ≠ "Atletico-MG" ∧
    FlashScore._canonicalize_team (FlashScore._canonicalize_team ("atletico mineiro")) =
      FlashScore._canonicalize_team ("atletico mineiro") ∧
    GeGlobo.canonicalize ("Atlético-MG") = "Atletico-MG" ∧
    GeGlobo.canonicalize ("atletico mineiro") = "Atletico-MG" ∧
    GeGlobo.canonicalize ("galo") = "Atletico-MG" ∧
    GeGlobo.canonicalize (GeGlobo.canonicalize ("Atlético-MG")) =
      GeGlobo.canonicalize ("Atlético-MG") := by
  refine ⟨rfl, rfl, rfl, by decide, by decide, rfl, rfl, rfl, rfl, rfl⟩

/-- C7 counterexample: a raw event whose `startDate` carries an explicit
year and timezone (`2026-01-10T15:00:00+00:00`).  `_normalize_event`
converts it with `astimezone` to America/São Paulo, so the canonical string
shows 12:00:00 — the visible wall-clock time shifted by the offset
difference, contradicting the claim that only the label changes. -/
theorem c7_clock_preservation_counterexample :
    ((GeGlobo._normalize_event
        { GeGlobo.emptyRawEvent with
            startDate := some ("2026-01-10T15:00:00+00:00"),
            home_team := some ("Cruzeiro"), away_team := some ("Galo") }
        ⟨2025, 12, 20⟩ ⟨2026, 6, 10⟩).1.map ProviderFixture.match_datetime) =
      some ("2026-01-10 12:00:00") ∧
    ("2026-01-10 12:00:00" : String) ≠ "2026-01-10 15:00:00" := by
  refine ⟨rfl, by decide⟩

/-- C7 (amended): the bot entry point's `normalize_datetime` does preserve
the reported wall-clock time — it only drops the tz label before
reformatting — but the GE and SofaScore providers instead convert tz-aware
instants to America/São Paulo, which shifts the visible clock by the offset
difference (e.g. 18:30+00:00 becomes 15:30:00). -/
theorem c7_clock_normalization_amended :
    (∀ (s : String) (d : PyDateTime),
      BotAgenda._parse_timestamp (.s s) = some d →
      BotAgenda.normalize_datetime s = some (fmtDateTime { d with tz := none })) ∧
    astimezoneSP ⟨2026, 1, 10, 18, 30, 0, some 0⟩ = ⟨2026, 1, 10, 15, 30, 0, some (-180)⟩ := by
  constructor
  · intro s d h
    unfold BotAgenda.normalize_datetime
    rw [h]
  · rfl

/-- C7 witness: the amended theorem applied to a concrete tz-aware ISO
string, whose hour and minute survive normalization unchanged. -/
theorem c7_clock_normalization_witness :
    BotAgenda.normalize_datetime ("2026-02-10T16:05:00+03:00") =
      some (fmtDateTime ⟨2026, 2, 10, 16, 5, 0, none⟩) := by
  have := c7_clock_normalization_amended.1 ("2026-02-10T16:05:00+03:00")
    ⟨2026, 2, 10, 16, 5, 0, some 180⟩ rfl
  simpa using this


/-- Successful `strptime` inside `_build_datetime_from_tokens` pins the time
fields to the parsed time token and leaves the result naive with zero
seconds. -/
theorem strptimeDMYHM_some {day month : Int} {y : Nat} {t : String} {n : PyDateTime}
    (h : GeGlobo.strptimeDMYHM day month y t = some n) :
    parseTimeHM t = some (n.hour, n.minute) ∧ n.second = 0 ∧ n.tz = none := by
  unfold GeGlobo.strptimeDMYHM at h
  split at h
  · exact absurd h (by simp)
  · split at h
    · rename_i h0 mi0 heq hcond
      injection h with h1
      subst h1
      exact ⟨heq, rfl, rfl⟩
    · exact absurd h (by simp)

/-- Every success of the candidate-year loop comes from a successful
`strptime` localized to America/São Paulo, with its date inside the window. -/
theorem tryYears_some {day month : Int} {t : String} {f tto : PyDate}
    {ys : List Nat} {dt : PyDateTime}
    (h : GeGlobo.tryYears day month t f tto ys = some dt) :
    ∃ y naive, y ∈ ys ∧ GeGlobo.strptimeDMYHM day month y t = some naive ∧
      dt = localizeSP naive ∧ dateLE f naive.dateOf ∧ dateLE naive.dateOf tto := by
  induction ys with
  | nil => exact absurd h (by simp [GeGlobo.tryYears])
  | cons y ys ih =>
    unfold GeGlobo.tryYears at h
    split at h
    · obtain ⟨y1, naive, hmem, hs, hrest⟩ := ih h
      exact ⟨y1, naive, List.mem_cons_of_mem y hmem, hs, hrest⟩
    · rename_i dt' heq
      split at h
      · rename_i hwin
        injection h with h1
        exact ⟨y, dt', List.mem_cons_self y ys, heq, h1.symm, hwin.1, hwin.2⟩
      · obtain ⟨y1, naive, hmem, hs, hrest⟩ := ih h
        exact ⟨y1, naive, List.mem_cons_of_mem y hmem, hs, hrest⟩

/-- Every success of `_build_datetime_from_tokens` is a localized
`strptime` result for some candidate year. -/
theorem build_tokens_some {tok t : String} {f tto : PyDate} {dt : PyDateTime}
    (h : GeGlobo._build_datetime_from_tokens tok t f tto = some dt) :
    ∃ day month y naive, GeGlobo.parseDayMonth tok = some (day, month) ∧
      GeGlobo.strptimeDMYHM day month y t = some naive ∧ dt = localizeSP naive := by
  unfold GeGlobo._build_datetime_from_tokens at h
  split at h
  · exact absurd h (by simp)
  · rename_i dm heq
    split at h
    · rename_i dt0 hty
      injection h with h1
      obtain ⟨y, naive, _, hs, hdt, _, _⟩ := tryYears_some hty
      exact ⟨dm.1, dm.2, y, naive, heq, hs, by rw [← h1]; exact hdt⟩
    · rename_i hty
      split at h
      · exact absurd h (by simp)
      · rename_i y0 ys hc
        rcases Option.map_eq_some'.mp h with ⟨naive, hs, hdt⟩
        exact ⟨dm.1, dm.2, y0, naive, heq, hs, hdt.symm⟩

/-- With the defaulted time token `"00:00"`, any datetime
`_build_datetime_from_tokens` builds has time 00:00:00, localized. -/
theorem build_tokens_time00 {tok : String} {f tto : PyDate} {dt : PyDateTime}
    (h : GeGlobo._build_datetime_from_tokens tok ("00:00") f tto = some dt) :
    dt.hour = 0 ∧ dt.minute = 0 ∧ dt.second = 0 ∧ dt.tz = some spOffset := by
  obtain ⟨day, month, y, naive, _, hs, hdt⟩ := build_tokens_some h
  obtain ⟨hpm, hsec, _⟩ := strptimeDMYHM_some hs
  have h00 : parseTimeHM ("00:00") = some (0, 0) := rfl
  rw [h00] at hpm
  have hfields := Option.some.inj hpm
  subst hdt
  unfold localizeSP
  refine ⟨?_, ?_, hsec, rfl⟩
  · exact (congrArg Prod.fst hfields).symm
  · exact (congrArg Prod.snd hfields).symm

/-- Time-of-day slice of the canonical formatter. -/
theorem timePart_fmt (d : PyDateTime) :
    timePart (fmtDateTime d) = ⟨pad2L d.hour ++ ':' :: pad2L d.minute ++ ':' :: pad2L d.second⟩ :=
  rfl

/-- C8 counterexample: a FlashScore text-fallback item carries no time
component at all, yet the emitted fixture's `match_datetime` reads 12:00:00
(noon), not 00:00:00, and no signal marks the time as unknown. -/
theorem c8_unknown_time_counterexample :
    (match FlashScore._parse_text_item ("10.02. Cruzeiro - Galo") ⟨2026, 1, 1⟩ ⟨2026, 12, 31⟩ with
     | .ok (some fx) => some (timePart fx.match_datetime)
     | _ => none) = some ("12:00:00") ∧
    ("12:00:00" : String) ≠ "00:00:00" := by
  refine ⟨rfl, by decide⟩

/-- C8 (amended): in the GE provider a raw event with no usable full
timestamp and an unknown (or defaulted `"00:00"`) time component yields a
fixture whose canonical datetime ends in 00:00:00, and the lower-severity
`Horário não informado` warning fires; the FlashScore text fallback instead
stamps every extracted item with 12:00:00 (noon) and emits no such signal. -/
theorem c8_unknown_time_amended :
    (∀ (e : GeGlobo.GeRawEvent) (dateFrom dateTo : PyDate)
      (fx : ProviderFixture) (w : Bool),
      pyOrS e.match_datetime (pyOrS e.startDate e.startTime) = none →
      (e.time = none ∨ e.time = some ("00:00")) →
      GeGlobo._normalize_event e dateFrom dateTo = (some fx, w) →
      timePart fx.match_datetime = "00:00:00" ∧ w = true) ∧
    (∀ (item : String) (dateFrom dateTo : PyDate) (fx : ProviderFixture),
      FlashScore._parse_text_item item dateFrom dateTo = .ok (some fx) →
      timePart fx.match_datetime = "12:00:00") := by
  constructor
  · intro e dateFrom dateTo fx w hraw htime hnorm
    have htt : pyOrDefault e.time ("00:00") = "00:00" := by
      rcases htime with h | h <;> simp [h, pyOrDefault]
    cases hdate : pyOrS e.date none with
    | none =>
      unfold GeGlobo._normalize_event at hnorm
      simp only [hraw, hdate] at hnorm
      exact absurd (congrArg Prod.fst hnorm) (by simp)
    | some dateToken =>
      unfold GeGlobo._normalize_event at hnorm
      simp only [hraw, hdate, htt] at hnorm
      cases hb : GeGlobo._build_datetime_from_tokens dateToken ("00:00") dateFrom dateTo with
      | none =>
        simp only [hb] at hnorm
        exact absurd (congrArg Prod.fst hnorm) (by simp)
      | some dt =>
        obtain ⟨hh, hmi, hsec, htz⟩ := build_tokens_time00 hb
        simp only [hb, htz, astimezoneSP, Option.isSome_some, Bool.true_and, if_true] at hnorm
        split at hnorm
        · exact absurd (congrArg Prod.fst hnorm) (by simp)
        · rw [Prod.mk.injEq] at hnorm
          obtain ⟨hfx, hw⟩ := hnorm
          have hfx2 := Option.some.inj hfx
          constructor
          · rw [← hfx2]
            simp only [timePart_fmt, hh, hmi, hsec]
            rfl
          · rw [← hw]
            simp
  · intro item dateFrom dateTo fx h
    unfold FlashScore._parse_text_item at h
    split at h
    · exact absurd h (by simp)
    · rename_i g1 g2 endIdx hd
      simp only [] at h
      split at h
      · exact absurd h (by simp)
      · rename_i teams hs
        split at h
        · exact absurd h (by simp)
        · rename_i dt0 hm
          have hdt0 : dt0.hour = 12 ∧ dt0.minute = 0 ∧ dt0.second = 0 := by
            unfold FlashScore.mkDatetimeNoon at hm
            split at hm
            · have h2 := Except.ok.inj hm
              rw [← h2]
              exact ⟨rfl, rfl, rfl⟩
            · exact absurd hm (by simp)
          have hfx : fx.match_datetime = fmtDateTime (localizeSP dt0) := by
            have h2 := Except.ok.inj h
            rw [← Option.some.inj h2]
          rw [hfx]
          unfold localizeSP
          simp only [timePart_fmt, hdt0.1, hdt0.2.1, hdt0.2.2]
          rfl

/-- C8 witness: the amended theorem applied to a concrete card-shaped event
whose time defaulted to `"00:00"`. -/
theorem c8_unknown_time_witness :
    timePart ("2026-01-05 00:00:00") = "00:00:00" ∧ (true : Bool) = true := by
  exact c8_unknown_time_amended.1
    { GeGlobo.emptyRawEvent with
        date := some ("05/01"), time := some ("00:00"),
        home_team := some ("Cruzeiro"), away_team := some ("Galo") }
    ⟨2025, 12, 20⟩ ⟨2026, 6, 10⟩
    { external_id := GeGlobo._build_external_id ("2026-01-05 00:00:00") ("Cruzeiro")
        ("Atletico-MG") ("")
      competition := "Campeonato Mineiro"
      match_datetime := "2026-01-05 00:00:00"
      home_team := "Cruzeiro"
      away_team := "Atletico-MG"
      venue := ""
      status := "scheduled"
      source := "ge.globo.com" }
    true rfl (Or.inr rfl) (by rfl)

/-- Shape of the sorted candidate-year set for an ordered window. -/
theorem candidateYears_le {a b : Nat} (h : a ≤ b) :
    GeGlobo.candidateYears a b = a :: (if a = b then [] else [b]) := by
  unfold GeGlobo.candidateYears
  rcases Nat.eq_or_lt_of_le h with h1 | h1
  · subst h1; simp
  · rw [if_neg (Nat.ne_of_lt h1), if_pos h1, if_neg (Nat.ne_of_lt h1)]

/-- Candidate-year loop, stepping over a year whose date does not parse. -/
theorem tryYears_cons_none {day month : Int} {t : String} {f tto : PyDate}
    {y : Nat} {ys : List Nat}
    (hs : GeGlobo.strptimeDMYHM day month y t = none) :
    GeGlobo.tryYears day month t f tto (y :: ys) =
      GeGlobo.tryYears day month t f tto ys := by
  simp only [GeGlobo.tryYears, hs]

/-- Candidate-year loop, accepting a year whose date parses inside the
window. -/
theorem tryYears_cons_hit {day month : Int} {t : String} {f tto : PyDate}
    {y : Nat} {ys : List Nat} {n : PyDateTime}
    (hs : GeGlobo.strptimeDMYHM day month y t = some n)
    (hw : dateLE f n.dateOf ∧ dateLE n.dateOf tto) :
    GeGlobo.tryYears day month t f tto (y :: ys) = some (localizeSP n) := by
  simp only [GeGlobo.tryYears, hs]
  exact if_pos hw

/-- Candidate-year loop, stepping over a year whose date parses but falls
outside the window. -/
theorem tryYears_cons_miss {day month : Int} {t : String} {f tto : PyDate}
    {y : Nat} {ys : List Nat} {n : PyDateTime}
    (hs : GeGlobo.strptimeDMYHM day month y t = some n)
    (hw : ¬(dateLE f n.dateOf ∧ dateLE n.dateOf tto)) :
    GeGlobo.tryYears day month t f tto (y :: ys) =
      GeGlobo.tryYears day month t f tto ys := by
  simp only [GeGlobo.tryYears, hs]
  exact if_neg hw

/-- The candidate-year loop returns nothing when every candidate either
fails to parse or falls outside the window. -/
theorem tryYears_none {day month : Int} {t : String} {f tto : PyDate} {ys : List Nat}
    (h : ∀ y ∈ ys, ∀ n, GeGlobo.strptimeDMYHM day month y t = some n →
      ¬(dateLE f n.dateOf ∧ dateLE n.dateOf tto)) :
    GeGlobo.tryYears day month t f tto ys = none := by
  induction ys with
  | nil => rfl
  | cons y ys ih =>
    have hrec := ih (fun y1 hy1 n hn => h y1 (List.mem_cons_of_mem y hy1) n hn)
    cases hs : GeGlobo.strptimeDMYHM day month y t with
    | none => rw [tryYears_cons_none hs, hrec]
    | some n => rw [tryYears_cons_miss hs (h y (List.mem_cons_self y ys) n hs), hrec]

/-- `_infer_year` loop, accepting a valid in-window candidate. -/
theorem inferLoop_cons_hit {day month : Nat} {f tto : PyDate} {y : Nat} {ys : List Nat}
    (hv : validDate ⟨y, month, day⟩)
    (hw : dateLE f ⟨y, month, day⟩ ∧ dateLE ⟨y, month, day⟩ tto) :
    FlashScore.inferLoop day month f tto (y :: ys) = y := by
  simp only [FlashScore.inferLoop]
  rw [if_pos hv, if_pos hw]

/-- `_infer_year` loop, stepping over a failing candidate. -/
theorem inferLoop_cons_skip {day month : Nat} {f tto : PyDate} {y : Nat} {ys : List Nat}
    (h : ¬(validDate ⟨y, month, day⟩ ∧
      dateLE f ⟨y, month, day⟩ ∧ dateLE ⟨y, month, day⟩ tto)) :
    FlashScore.inferLoop day month f tto (y :: ys) =
      FlashScore.inferLoop day month f tto ys := by
  simp only [FlashScore.inferLoop]
  by_cases hv : validDate ⟨y, month, day⟩
  · rw [if_pos hv, if_neg (fun hc => h ⟨hv, hc⟩)]
  · rw [if_neg hv]

/-- The `_infer_year` candidate loop falls through to the December rule when
every candidate fails. -/
theorem inferLoop_fallback {day month : Nat} {f tto : PyDate} {ys : List Nat}
    (h : ∀ y ∈ ys, ¬(validDate ⟨y, month, day⟩ ∧
      dateLE f ⟨y, month, day⟩ ∧ dateLE ⟨y, month, day⟩ tto)) :
    FlashScore.inferLoop day month f tto ys = FlashScore.inferFallback month f tto := by
  induction ys with
  | nil => rfl
  | cons y ys ih =>
    rw [inferLoop_cons_skip (h y (List.mem_cons_self y ys))]
    exact ih (fun y1 hy1 => h y1 (List.mem_cons_of_mem y hy1))

/-- C4 counterexample: for the window 2025-12-20..2026-01-10 and the
year-less token 15/01, neither endpoint-year candidate lies inside the
window, so the claim requires the fallback to the window's start year 2025;
the FlashScore resolver instead returns 2026 through its December rule. -/
theorem c4_year_inference_counterexample :
    FlashScore._infer_year 15 1 ⟨2025, 12, 20⟩ ⟨2026, 1, 10⟩ = 2026 ∧
    GeGlobo.candidateYears 2025 2026 = [2025, 2026] ∧
    ¬ (dateLE ⟨2025, 12, 20⟩ ⟨2025, 1, 15⟩ ∧ dateLE ⟨2025, 1, 15⟩ ⟨2026, 1, 10⟩) ∧
    ¬ (dateLE ⟨2025, 12, 20⟩ ⟨2026, 1, 15⟩ ∧ dateLE ⟨2026, 1, 15⟩ ⟨2026, 1, 10⟩) ∧
    (2026 : Nat) ≠ 2025 := by
  refine ⟨rfl, rfl, by decide, by decide, by decide⟩

/-- C4 (amended): both year-less resolvers try the years of the window's two
endpoints in ascending order and accept the first candidate whose date lies
inside the window; the window-crossing example (date_from 2025-12-20,
date_to 2026-01-10, token 05/01) selects 2026.  When no endpoint-year
candidate fits, `_build_datetime_from_tokens` falls back to the window's
start year, while FlashScore's `_infer_year` falls back to the end year when
the window starts in December and the token month does not exceed the end
month, and to the start year otherwise. -/
theorem c4_year_inference_amended :
    (GeGlobo._build_datetime_from_tokens ("05/01") ("16:00") ⟨2025, 12, 20⟩ ⟨2026, 1, 10⟩ =
        some ⟨2026, 1, 5, 16, 0, 0, some (-180)⟩ ∧
      FlashScore._infer_year 5 1 ⟨2025, 12, 20⟩ ⟨2026, 1, 10⟩ = 2026) ∧
    (∀ (tok t : String) (f tto : PyDate) (day month : Int) (n1 : PyDateTime),
      GeGlobo.parseDayMonth tok = some (day, month) → f.year ≤ tto.year →
      GeGlobo.strptimeDMYHM day month f.year t = some n1 →
      dateLE f n1.dateOf → dateLE n1.dateOf tto →
      GeGlobo._build_datetime_from_tokens tok t f tto = some (localizeSP n1)) ∧
    (∀ (tok t : String) (f tto : PyDate) (day month : Int) (n2 : PyDateTime),
      GeGlobo.parseDayMonth tok = some (day, month) → f.year < tto.year →
      (∀ n0, GeGlobo.strptimeDMYHM day month f.year t = some n0 →
        ¬(dateLE f n0.dateOf ∧ dateLE n0.dateOf tto)) →
      GeGlobo.strptimeDMYHM day month tto.year t = some n2 →
      dateLE f n2.dateOf → dateLE n2.dateOf tto →
      GeGlobo._build_datetime_from_tokens tok t f tto = some (localizeSP n2)) ∧
    (∀ (tok t : String) (f tto : PyDate) (day month : Int),
      GeGlobo.parseDayMonth tok = some (day, month) → f.year ≤ tto.year →
      (∀ y n, (y = f.year ∨ y = tto.year) →
        GeGlobo.strptimeDMYHM day month y t = some n →
        ¬(dateLE f n.dateOf ∧ dateLE n.dateOf tto)) →
      GeGlobo._build_datetime_from_tokens tok t f tto =
        (GeGlobo.strptimeDMYHM day month f.year t).map localizeSP) ∧
    (∀ (day month : Nat) (f tto : PyDate),
      f.year ≤ tto.year →
      (validDate ⟨f.year, month, day⟩ →
        dateLE f ⟨f.year, month, day⟩ → dateLE ⟨f.year, month, day⟩ tto →
        FlashScore._infer_year day month f tto = f.year) ∧
      (f.year < tto.year →
        ¬(validDate ⟨f.year, month, day⟩ ∧
          dateLE f ⟨f.year, month, day⟩ ∧ dateLE ⟨f.year, month, day⟩ tto) →
        validDate ⟨tto.year, month, day⟩ →
        dateLE f ⟨tto.year, month, day⟩ → dateLE ⟨tto.year, month, day⟩ tto →
        FlashScore._infer_year day month f tto = tto.year) ∧
      ((∀ y, (y = f.year ∨ y = tto.year) →
        ¬(validDate ⟨y, month, day⟩ ∧
          dateLE f ⟨y, month, day⟩ ∧ dateLE ⟨y, month, day⟩ tto)) →
        FlashScore._infer_year day month f tto = FlashScore.inferFallback month f tto)) := by
  refine ⟨⟨rfl, rfl⟩, ?_, ?_, ?_, ?_⟩
  · intro tok t f tto day month n1 hdm hle hs hw1 hw2
    have hcands := candidateYears_le hle
    have hty : GeGlobo.tryYears day month t f tto
        (GeGlobo.candidateYears f.year tto.year) = some (localizeSP n1) := by
      rw [hcands]
      exact tryYears_cons_hit hs ⟨hw1, hw2⟩
    simp only [GeGlobo._build_datetime_from_tokens, hdm, hty]
  · intro tok t f tto day month n2 hdm hlt hfail hs2 hw1 hw2
    have hcands := candidateYears_le (Nat.le_of_lt hlt)
    rw [if_neg (Nat.ne_of_lt hlt)] at hcands
    have hty : GeGlobo.tryYears day month t f tto
        (GeGlobo.candidateYears f.year tto.year) = some (localizeSP n2) := by
      rw [hcands]
      cases hs1 : GeGlobo.strptimeDMYHM day month f.year t with
      | none => rw [tryYears_cons_none hs1]; exact tryYears_cons_hit hs2 ⟨hw1, hw2⟩
      | some n0 =>
        rw [tryYears_cons_miss hs1 (hfail n0 hs1)]
        exact tryYears_cons_hit hs2 ⟨hw1, hw2⟩
    simp only [GeGlobo._build_datetime_from_tokens, hdm, hty]
  · intro tok t f tto day month hdm hle hfail
    have hcands := candidateYears_le hle
    have hmem : ∀ y ∈ GeGlobo.candidateYears f.year tto.year,
        y = f.year ∨ y = tto.year := by
      intro y hy
      rw [hcands] at hy
      rcases List.mem_cons.mp hy with h | h
      · exact Or.inl h
      · split at h
        · exact absurd h (List.not_mem_nil y)
        · exact Or.inr (List.mem_singleton.mp h)
    have hty : GeGlobo.tryYears day month t f tto
        (GeGlobo.candidateYears f.year tto.year) = none :=
      tryYears_none (fun y hy n hn => hfail y n (hmem y hy) hn)
    have hty2 : GeGlobo.tryYears day month t f tto
        (f.year :: if f.year = tto.year then [] else [tto.year]) = none := by
      rw [← hcands]; exact hty
    simp only [GeGlobo._build_datetime_from_tokens, hdm, hcands, hty2]
  · intro day month f tto hle
    have hcands := candidateYears_le hle
    refine ⟨?_, ?_, ?_⟩
    · intro hv h1 h2
      unfold FlashScore._infer_year
      rw [hcands]
      exact inferLoop_cons_hit hv ⟨h1, h2⟩
    · intro hlt hfail1 hv h1 h2
      unfold FlashScore._infer_year
      rw [hcands, if_neg (Nat.ne_of_lt hlt)]
      rw [inferLoop_cons_skip hfail1]
      exact inferLoop_cons_hit hv ⟨h1, h2⟩
    · intro hfail
      unfold FlashScore._infer_year
      have hmem : ∀ y ∈ GeGlobo.candidateYears f.year tto.year,
          ¬(validDate ⟨y, month, day⟩ ∧
            dateLE f ⟨y, month, day⟩ ∧ dateLE ⟨y, month, day⟩ tto) := by
        intro y hy
        rw [hcands] at hy
        rcases List.mem_cons.mp hy with h | h
        · exact hfail y (Or.inl h)
        · split at h
          · exact absurd h (List.not_mem_nil y)
          · exact hfail y (Or.inr (List.mem_singleton.mp h))
      exact inferLoop_fallback hmem

/-- C4 witness: the amended theorem's first-candidate clause applied to the
spec's year-inference example (token 15/03 inside the 2026 window). -/
theorem c4_year_inference_witness :
    GeGlobo._build_datetime_from_tokens ("15/03") ("10:00") ⟨2026, 1, 1⟩ ⟨2026, 12, 31⟩ =
      some (localizeSP ⟨2026, 3, 15, 10, 0, 0, none⟩) :=
  c4_year_inference_amended.2.1 ("15/03") ("10:00") ⟨2026, 1, 1⟩ ⟨2026, 12, 31⟩ 15 3
    ⟨2026, 3, 15, 10, 0, 0, none⟩ rfl (by decide) rfl (by decide) (by decide)

/-- A fixture record accepted by `normalize_fixture` always carries
non-empty team names: the `if not home_name or not away_name` guard drops
everything else. -/
theorem normalize_fixture_teams_nonempty {p : BotAgenda.FixturePayload}
    {m : BotAgenda.NormalizedFixture}
    (h : BotAgenda.normalize_fixture p = some m) :
    m.home_team ≠ "" ∧ m.away_team ≠ "" := by
  unfold BotAgenda.normalize_fixture at h
  split at h
  · exact absurd h (by simp)
  · split at h
    · split at h
      · exact absurd h (by simp)
      · split at h
        · exact absurd h (by simp)
        · split at h
          · exact absurd h (by simp)
          · split at h
            · rename_i hteams
              split at h
              · exact absurd h (by simp)
              · rename_i hne
                injection h with h1
                rw [← h1]
                push_neg at hne
                exact hne
            · exact absurd h (by simp)
    · exact absurd h (by simp)

/-- Invariant of the per-team filter loop: everything in the accumulator
keeps satisfying the window/parse/team-name properties. -/
theorem team_matches_fold_invariant (dfrom dto : PyDate) (team : String)
    (fixtures : List BotAgenda.FixturePayload) :
    ∀ (acc : List BotAgenda.NormalizedFixture),
      (∀ m ∈ acc, m.home_team ≠ "" ∧ m.away_team ≠ "" ∧
        ∃ d, BotAgenda.parse_normalized_datetime m.match_datetime = some d ∧
          dateLE dfrom d.dateOf ∧ dateLE d.dateOf dto) →
      ∀ m ∈ fixtures.foldl (BotAgenda.teamMatchesStep dfrom dto team) acc,
        m.home_team ≠ "" ∧ m.away_team ≠ "" ∧
        ∃ d, BotAgenda.parse_normalized_datetime m.match_datetime = some d ∧
          dateLE dfrom d.dateOf ∧ dateLE d.dateOf dto := by
  induction fixtures with
  | nil => intro acc hacc m hm; exact hacc m hm
  | cons fx rest ih =>
    intro acc hacc m hm
    rw [List.foldl_cons] at hm
    refine ih (BotAgenda.teamMatchesStep dfrom dto team acc fx) ?_ m hm
    intro m1 hm1
    unfold BotAgenda.teamMatchesStep at hm1
    split at hm1
    · exact hacc m1 hm1
    · rename_i n hn
      split at hm1
      · exact hacc m1 hm1
      · rename_i event_dt hdt
        split at hm1
        · exact hacc m1 hm1
        · rename_i hwin
          split at hm1
          · rcases List.mem_append.mp hm1 with h1 | h1
            · exact hacc m1 h1
            · have hm1n : m1 = n := List.mem_singleton.mp h1
              subst hm1n
              push_neg at hwin
              obtain ⟨hw1, hw2⟩ := hwin
              refine ⟨(normalize_fixture_teams_nonempty hn).1,
                (normalize_fixture_teams_nonempty hn).2,
                event_dt, hdt, dateLE_of_not_lt hw1, dateLE_of_not_lt hw2⟩
          · exact hacc m1 hm1

/-- C3: every record that survives the per-team filter of `main` and is
accumulated for emission has a non-empty home team, a non-empty away team,
and a `match_datetime` that parses back and whose date lies inside the
caller-supplied `[date_from, date_to]` window; raw events failing any of
these checks are dropped rather than emitted with defaults. -/
theorem c3_emitted_fixture_invariant :
    ∀ (fixtures : List BotAgenda.FixturePayload) (dfrom dto : PyDate) (team : String)
      (m : BotAgenda.NormalizedFixture),
      m ∈ BotAgenda.team_matches fixtures dfrom dto team →
      m.home_team ≠ "" ∧ m.away_team ≠ "" ∧
      ∃ d, BotAgenda.parse_normalized_datetime m.match_datetime = some d ∧
        dateLE dfrom d.dateOf ∧ dateLE d.dateOf dto := by
  intro fixtures dfrom dto team m hm
  exact team_matches_fold_invariant dfrom dto team fixtures []
    (fun m1 hm1 => absurd hm1 (List.not_mem_nil m1)) m hm

/-- C3 witness: the invariant applied to a concrete one-payload run whose
record survives the filter. -/
theorem c3_emitted_fixture_invariant_witness :
    ({ external_id := "123", match_datetime := "2026-02-10 16:00:00",
       competition := none, season := none, round := none,
       home_team := "Cruzeiro", away_team := "Galo", home_goals := none,
       away_goals := none, status := none,
       venue := none } : BotAgenda.NormalizedFixture).home_team ≠ "" ∧
    ({ external_id := "123", match_datetime := "2026-02-10 16:00:00",
       competition := none, season := none, round := none,
       home_team := "Cruzeiro", away_team := "Galo", home_goals := none,
       away_goals := none, status := none,
       venue := none } : BotAgenda.NormalizedFixture).away_team ≠ "" ∧
    ∃ d, BotAgenda.parse_normalized_datetime
        ({ external_id := "123", match_datetime := "2026-02-10 16:00:00",
           competition := none, season := none, round := none,
           home_team := "Cruzeiro", away_team := "Galo", home_goals := none,
           away_goals := none, status := none,
           venue := none } : BotAgenda.NormalizedFixture).match_datetime = some d ∧
      dateLE ⟨2026, 2, 1⟩ d.dateOf ∧ dateLE d.dateOf ⟨2026, 3, 1⟩ :=
  c3_emitted_fixture_invariant
    [{ fixture_id := some (.s "123"), payload_id := none,
       fixture_date := some (.s "2026-02-10T16:00:00"), fixture_timestamp := none,
       payload_date := none, league_name := none, league_season := none,
       fixture_season := none, league_round := .absent, payload_round := .absent,
       teams_home := .dict [("name", "Cruzeiro")],
       teams_away := .dict [("name", "Galo")],
       goals_home := .absent, goals_away := .absent,
       fixture_status := .absent, venue := .absent }]
    ⟨2026, 2, 1⟩ ⟨2026, 3, 1⟩ ("Cruzeiro") _ (by decide)

/-- Key list of a dict after assignment: existing keys keep their positions,
a new key is appended. -/
theorem dictInsert_keys (m : List (String × BotAgenda.NormalizedFixture)) (k : String)
    (v : BotAgenda.NormalizedFixture) :
    (BotAgenda.dictInsert m k v).map Prod.fst =
      if k ∈ m.map Prod.fst then m.map Prod.fst else m.map Prod.fst ++ [k] := by
  induction m with
  | nil => simp [BotAgenda.dictInsert]
  | cons p t ih =>
    obtain ⟨k0, v0⟩ := p
    simp only [BotAgenda.dictInsert]
    by_cases h : k0 = k
    · subst h
      simp
    · rw [if_neg h]
      simp only [List.map_cons, ih]
      by_cases h2 : k ∈ t.map Prod.fst
      · rw [if_pos h2, if_pos (by simp [h2])]
      · rw [if_neg h2, if_neg ?_, List.cons_append]
        simp only [List.mem_cons]
        push_neg
        exact ⟨fun he => h he.symm, h2⟩

/-- Lookup of the assigned key after a dict assignment. -/
theorem dictGet_insert_self (m : List (String × BotAgenda.NormalizedFixture)) (k : String)
    (v : BotAgenda.NormalizedFixture) :
    BotAgenda.dictGet (BotAgenda.dictInsert m k v) k = some v := by
  induction m with
  | nil => simp [BotAgenda.dictInsert, BotAgenda.dictGet]
  | cons p t ih =>
    obtain ⟨k0, v0⟩ := p
    simp only [BotAgenda.dictInsert]
    by_cases h : k0 = k
    · subst h
      simp [BotAgenda.dictGet]
    · rw [if_neg h]
      simp only [BotAgenda.dictGet, if_neg h]
      exact ih

/-- Lookup of any other key after a dict assignment. -/
theorem dictGet_insert_other (m : List (String × BotAgenda.NormalizedFixture))
    (k k' : String) (v : BotAgenda.NormalizedFixture) (h : k' ≠ k) :
    BotAgenda.dictGet (BotAgenda.dictInsert m k v) k' = BotAgenda.dictGet m k' := by
  induction m with
  | nil =>
    simp only [BotAgenda.dictInsert, BotAgenda.dictGet]
    rw [if_neg (fun he : k = k' => h he.symm)]
  | cons p t ih =>
    obtain ⟨k0, v0⟩ := p
    simp only [BotAgenda.dictInsert]
    by_cases h0 : k0 = k
    · subst h0
      simp only [if_pos rfl, BotAgenda.dictGet]
      rw [if_neg (fun he : k0 = k' => h he.symm), if_neg (fun he : k0 = k' => h he.symm)]
    · rw [if_neg h0]
      simp only [BotAgenda.dictGet]
      by_cases h1 : k0 = k'
      · simp [h1]
      · rw [if_neg h1, if_neg h1]
        exact ih

/-- The dedup dict only ever stores a record under its own `external_id`. -/
theorem dictInsert_aligned (m : List (String × BotAgenda.NormalizedFixture))
    (v : BotAgenda.NormalizedFixture)
    (hm : ∀ p ∈ m, p.1 = p.2.external_id) :
    ∀ p ∈ BotAgenda.dictInsert m v.external_id v, p.1 = p.2.external_id := by
  induction m with
  | nil =>
    intro p hp
    simp only [BotAgenda.dictInsert, List.mem_singleton] at hp
    rw [hp]
  | cons q t ih =>
    obtain ⟨k0, v0⟩ := q
    intro p hp
    simp only [BotAgenda.dictInsert] at hp
    by_cases h : k0 = v.external_id
    · rw [if_pos h] at hp
      rcases List.mem_cons.mp hp with h1 | h1
      · rw [h1, h]
      · exact hm p (List.mem_cons_of_mem _ h1)
    · rw [if_neg h] at hp
      rcases List.mem_cons.mp hp with h1 | h1
      · rw [h1]; exact hm (k0, v0) (List.mem_cons_self _ _)
      · exact ih (fun q hq => hm q (List.mem_cons_of_mem _ hq)) p h1

/-- Membership in the first-occurrence key list. -/
theorem mem_firstOccKeys (x : String) (l : List String) :
    x ∈ BotAgenda.firstOccKeys l ↔ x ∈ l := by
  induction l using BotAgenda.firstOccKeys.induct with
  | case1 => simp [BotAgenda.firstOccKeys]
  | case2 k ks ih =>
    rw [BotAgenda.firstOccKeys]
    simp only [List.mem_cons, ih, List.mem_filter]
    constructor
    · rintro (h | ⟨h, _⟩)
      · exact Or.inl h
      · exact Or.inr h
    · rintro (h | h)
      · exact Or.inl h
      · by_cases hx : x = k
        · exact Or.inl hx
        · exact Or.inr ⟨h, by simp [hx]⟩

/-- The first-occurrence key list has no duplicates. -/
theorem nodup_firstOccKeys (l : List String) : (BotAgenda.firstOccKeys l).Nodup := by
  induction l using BotAgenda.firstOccKeys.induct with
  | case1 => simp [BotAgenda.firstOccKeys]
  | case2 k ks ih =>
    rw [BotAgenda.firstOccKeys]
    refine List.nodup_cons.mpr ⟨?_, ih⟩
    intro hk
    have := (mem_firstOccKeys k _).mp hk
    simp [List.mem_filter] at this

/-- Appending one key to the input extends the first-occurrence list exactly
when the key is new. -/
theorem firstOccKeys_snoc (l : List String) (k : String) :
    BotAgenda.firstOccKeys (l ++ [k]) =
      if k ∈ l then BotAgenda.firstOccKeys l else BotAgenda.firstOccKeys l ++ [k] := by
  induction l using BotAgenda.firstOccKeys.induct with
  | case1 => simp [BotAgenda.firstOccKeys]
  | case2 a t ih =>
    rw [List.cons_append, BotAgenda.firstOccKeys, List.filter_append]
    by_cases hka : k = a
    · subst hka
      simp only [List.filter_cons]
      rw [BotAgenda.firstOccKeys]
      simp
    · have hfk : List.filter (fun x => x ≠ a) [k] = [k] := by simp [hka]
      rw [hfk, ih]
      have hmem : k ∈ t.filter (fun x => x ≠ a) ↔ k ∈ t := by
        simp [List.mem_filter, hka]
      by_cases h2 : k ∈ t
      · rw [if_pos (hmem.mpr h2), if_pos (by simp [h2]), BotAgenda.firstOccKeys]
      · rw [if_neg (fun hc => h2 (hmem.mp hc)), if_neg (by simp [h2, hka])]
        rw [BotAgenda.firstOccKeys, List.cons_append]

/-- Appending one record updates `lastFor` pointwise. -/
theorem lastFor_snoc (k : String) (l : List BotAgenda.NormalizedFixture)
    (r : BotAgenda.NormalizedFixture) :
    BotAgenda.lastFor k (l ++ [r]) =
      if r.external_id = k then some r else BotAgenda.lastFor k l := by
  unfold BotAgenda.lastFor
  rw [List.reverse_append]
  simp only [List.reverse_singleton, List.singleton_append, List.find?_cons]
  by_cases h : r.external_id = k
  · simp [h]
  · simp [h]

/-- Invariant of the dedup fold of `main`: the dict's keys are the input's
keys in first-occurrence order, each key maps to the last record seen for
it, and every entry sits under its record's own `external_id`. -/
theorem dedupMap_invariant (rs : List BotAgenda.NormalizedFixture) :
    ((rs.foldl (fun m r => BotAgenda.dictInsert m r.external_id r) []).map Prod.fst =
      BotAgenda.firstOccKeys (rs.map (·.external_id))) ∧
    (∀ k, BotAgenda.dictGet
        (rs.foldl (fun m r => BotAgenda.dictInsert m r.external_id r) []) k =
      BotAgenda.lastFor k rs) ∧
    (∀ p ∈ rs.foldl (fun m r => BotAgenda.dictInsert m r.external_id r) [],
      p.1 = p.2.external_id) := by
  induction rs using List.reverseRecOn with
  | nil =>
    refine ⟨by simp [BotAgenda.firstOccKeys], fun k => rfl, ?_⟩
    intro p hp
    exact absurd hp (List.not_mem_nil p)
  | append_singleton l r ih =>
    obtain ⟨ihk, ihg, iha⟩ := ih
    rw [List.foldl_append, List.foldl_cons, List.foldl_nil]
    refine ⟨?_, ?_, ?_⟩
    · rw [dictInsert_keys, ihk, List.map_append, List.map_singleton,
        firstOccKeys_snoc]
      by_cases h : r.external_id ∈ l.map (·.external_id)
      · rw [if_pos ((mem_firstOccKeys _ _).mpr h), if_pos h]
      · rw [if_neg (fun hc => h ((mem_firstOccKeys _ _).mp hc)), if_neg h]
    · intro k
      rw [lastFor_snoc]
      by_cases h : r.external_id = k
      · rw [if_pos h, ← h, dictGet_insert_self]
      · rw [if_neg h, dictGet_insert_other _ _ _ _ (fun he => h he.symm), ihg]
    · intro p hp
      exact dictInsert_aligned _ r iha p hp

/-- On an association list with pairwise-distinct keys, looking every key
back up reproduces the values in order. -/
theorem assoc_values_eq (M : List (String × BotAgenda.NormalizedFixture))
    (hnd : (M.map Prod.fst).Nodup) :
    (M.map Prod.fst).filterMap (fun k => BotAgenda.dictGet M k) = M.map Prod.snd := by
  induction M with
  | nil => rfl
  | cons p t ih =>
    obtain ⟨k0, v0⟩ := p
    simp only [List.map_cons] at hnd ⊢
    obtain ⟨hk0, hnd2⟩ := List.nodup_cons.mp hnd
    simp only [List.filterMap_cons]
    have hself : BotAgenda.dictGet ((k0, v0) :: t) k0 = some v0 := by
      simp [BotAgenda.dictGet]
    rw [hself]
    have hcongr : ∀ k ∈ t.map Prod.fst,
        BotAgenda.dictGet ((k0, v0) :: t) k = BotAgenda.dictGet t k := by
      intro k hk
      have hne : k0 ≠ k := fun he => hk0 (he ▸ hk)
      simp [BotAgenda.dictGet, hne]
    rw [List.filterMap_congr hcongr, ih hnd2]

/-- The reference deduplication is the identity on inputs whose keys are
already pairwise distinct. -/
theorem dedupSpec_of_nodup (rs : List BotAgenda.NormalizedFixture)
    (h : (rs.map (·.external_id)).Nodup) : BotAgenda.dedupSpec rs = rs := by
  induction rs with
  | nil => simp [BotAgenda.dedupSpec, BotAgenda.firstOccKeys]
  | cons r t ih =>
    simp only [List.map_cons] at h
    obtain ⟨hr, ht⟩ := List.nodup_cons.mp h
    unfold BotAgenda.dedupSpec
    rw [List.map_cons, BotAgenda.firstOccKeys]
    have hfilter : (t.map (·.external_id)).filter (fun x => x ≠ r.external_id) =
        t.map (·.external_id) := by
      rw [List.filter_eq_self]
      intro a ha
      simp only [ne_eq, decide_not, Bool.not_eq_eq_eq_not, Bool.not_true,
        decide_eq_false_iff_not]
      exact fun he => hr (he ▸ ha)
    rw [hfilter, List.filterMap_cons]
    have hlast : BotAgenda.lastFor r.external_id (r :: t) = some r := by
      unfold BotAgenda.lastFor
      rw [List.reverse_cons, List.find?_append]
      have hnone : (t.reverse.find? (fun x => x.external_id = r.external_id)) = none := by
        rw [List.find?_eq_none]
        intro x hx
        simp only [decide_eq_true_eq]
        exact fun he => hr (he ▸ List.mem_map_of_mem (·.external_id) (List.mem_reverse.mp hx))
      rw [hnone]
      simp
    rw [hlast]
    have hcongr : ∀ k ∈ BotAgenda.firstOccKeys (t.map (·.external_id)),
        BotAgenda.lastFor k (r :: t) = BotAgenda.lastFor k t := by
      intro k hk
      have hkt : k ∈ t.map (·.external_id) := (mem_firstOccKeys k _).mp hk
      have hne : r.external_id ≠ k := fun he => hr (he ▸ hkt)
      unfold BotAgenda.lastFor
      rw [List.reverse_cons, List.find?_append]
      have : ([r].find? (fun x => x.external_id = k)) = none := by
        simp [hne]
      rw [this]
      simp
    rw [List.filterMap_congr hcongr]
    have := ih ht
    unfold BotAgenda.dedupSpec at this
    rw [this]

/-- C2: deduplication in `main` keys records by `external_id`; the output
has exactly one record per distinct id, in first-occurrence order of the
ids, and each surviving record is the last one seen for its id
(last-write-wins on content); deduplicating an already-deduplicated list is
a no-op. -/
theorem c2_dedup_last_write_wins :
    (∀ rs : List BotAgenda.NormalizedFixture,
      BotAgenda.dedup rs = BotAgenda.dedupSpec rs) ∧
    (∀ rs : List BotAgenda.NormalizedFixture,
      (BotAgenda.dedup rs).map (·.external_id) =
        BotAgenda.firstOccKeys (rs.map (·.external_id))) ∧
    (∀ rs : List BotAgenda.NormalizedFixture,
      BotAgenda.dedup (BotAgenda.dedup rs) = BotAgenda.dedup rs) := by
  have heq : ∀ rs : List BotAgenda.NormalizedFixture,
      BotAgenda.dedup rs = BotAgenda.dedupSpec rs := by
    intro rs
    obtain ⟨hkeys, hget, halign⟩ := dedupMap_invariant rs
    unfold BotAgenda.dedup BotAgenda.dedupSpec
    rw [← hkeys]
    have hfun : (fun k => BotAgenda.lastFor k rs) = fun k =>
        BotAgenda.dictGet
          (rs.foldl (fun m r => BotAgenda.dictInsert m r.external_id r) []) k :=
      funext fun k => (hget k).symm
    rw [hfun]
    exact (assoc_values_eq _ (hkeys ▸ nodup_firstOccKeys _)).symm
  have hkeysMap : ∀ rs : List BotAgenda.NormalizedFixture,
      (BotAgenda.dedup rs).map (·.external_id) =
        BotAgenda.firstOccKeys (rs.map (·.external_id)) := by
    intro rs
    obtain ⟨hkeys, hget, halign⟩ := dedupMap_invariant rs
    unfold BotAgenda.dedup
    rw [List.map_map, ← hkeys]
    exact List.map_congr_left (fun p hp => (halign p hp).symm)
  refine ⟨heq, hkeysMap, ?_⟩
  intro rs
  rw [heq (BotAgenda.dedup rs)]
  apply dedupSpec_of_nodup
  rw [hkeysMap rs]
  exact nodup_firstOccKeys _
